import Mathlib

/-!
Verification development for the ID-masking pipeline.

Shallow embedding of the repository's OCR post-processing code:
`parseOCRResult` / `interpolateBBox` / `mergeBBoxes` (idParser),
the structure-recovery half of `performOCR` (ocrHelper), and the
masking-region synthesis of `MaskingWorkspace`.

JavaScript `number` arithmetic on the (integer-valued) bounding-box
data is modelled over `ℚ`; `Math.floor` / `Math.ceil` become
`Int.floor` / `Int.ceil`.  JavaScript strings are modelled as Lean
`String` / `List Char` (all text handled by the code is in the BMP,
where JS UTF-16 lengths agree with code-point counts).
-/

namespace IDMasking

/-! ### Character classes (JS regex classes) -/

/-- JS regex `\s` (ECMAScript WhiteSpace ∪ LineTerminator), also the
character set removed by `String.prototype.trim`. -/
def jsIsWs (c : Char) : Bool :=
  let n := c.toNat
  (decide (9 ≤ n) && decide (n ≤ 13)) || decide (n = 32) || decide (n = 160) ||
  decide (n = 0x1680) || (decide (0x2000 ≤ n) && decide (n ≤ 0x200a)) ||
  decide (n = 0x2028) || decide (n = 0x2029) || decide (n = 0x202f) ||
  decide (n = 0x205f) || decide (n = 0x3000) || decide (n = 0xfeff)

/-- JS regex `\d` = `[0-9]` (codepoints 48-57). -/
def jsDigit (c : Char) : Bool := decide (48 ≤ c.toNat) && decide (c.toNat ≤ 57)

/-- JS regex `[^\d\n]` — the separator class of the RRN regex. -/
def rrnSepChar (c : Char) : Bool := !jsDigit c && !(c == '\n')

/-- JS regex `[\d\s-]` — the tail class of the RRN regex. -/
def rrnTailChar (c : Char) : Bool := jsDigit c || jsIsWs c || c == '-'

/-- JS regex `[A-Z]`. -/
def upperAZ (c : Char) : Bool := decide ('A' ≤ c) && decide (c ≤ 'Z')

/-- JS regex `[0-9A-Z]`. -/
def upperOrDigit (c : Char) : Bool := jsDigit c || upperAZ c

/-- JS regex `[가-힣]` (precomposed Hangul syllables). -/
def hangulSyl (c : Char) : Bool := decide ('가' ≤ c) && decide (c ≤ '힣')

/-- JS regex `[.-]` / `[.\-]` — the date separator class. -/
def dotDash (c : Char) : Bool := c == '.' || c == '-'

/-! ### Generic string helpers (JS string methods) -/

/-- Does `l` start with the pattern `pat`? -/
def startsWithSeq : List Char → List Char → Bool
  | [], _ => true
  | _ :: _, [] => false
  | p :: ps, c :: cs => p == c && startsWithSeq ps cs

/-- JS `String.prototype.includes`: does `l` contain `pat` as a
contiguous subsequence? -/
def containsSeq : List Char → List Char → Bool
  | [], pat => startsWithSeq pat []
  | l@(_ :: cs), pat => startsWithSeq pat l || containsSeq cs pat

/-- `includes` on `String`s. -/
def strContains (s pat : String) : Bool := containsSeq s.data pat.data

/-- JS `String.prototype.indexOf` (‑1 when absent). -/
def idxOfGo (pat : List Char) : List Char → ℕ → Option ℕ
  | [], i => if startsWithSeq pat [] then some i else none
  | l@(_ :: cs), i =>
    if startsWithSeq pat l then some i else idxOfGo pat cs (i + 1)

/-- JS `String.prototype.indexOf` (‑1 when absent). -/
def jsIndexOf (l pat : List Char) : ℤ :=
  match idxOfGo pat l 0 with
  | some i => (i : ℤ)
  | none => -1

/-- JS `String.prototype.trim`. -/
def jsTrim (l : List Char) : List Char :=
  ((l.dropWhile jsIsWs).reverse.dropWhile jsIsWs).reverse

/-- `trim` on `String`s. -/
def jsTrimS (s : String) : String := String.mk (jsTrim s.data)

/-- JS `str.replace(/\D/g, '')`: the digit characters of `l`, in order. -/
def digitsOf (l : List Char) : List Char := l.filter jsDigit

/-- JS `str.toLowerCase()` (ASCII range; the code only lowercases
Latin keywords, and Hangul has no case). -/
def jsToLower (s : String) : String := String.mk (s.data.map Char.toLower)

/-- Length of the longest prefix of `l` all of whose characters
satisfy `p` (the extent of a greedy `p*` / `p+` scan). -/
def maxRun (p : Char → Bool) : List Char → ℕ
  | [] => 0
  | c :: cs => if p c then maxRun p cs + 1 else 0

/-! ### The RRN regex `/(\d{6})[^\d\n]*([\d\s-]{7,})/`
Backtracking semantics: at the leftmost viable start, `\d{6}` is
fixed-width, `[^\d\n]*` is greedy with backtracking (largest viable
separator run wins), and `[\d\s-]{7,}` is greedy (maximal run,
accepted iff at least 7 long). -/

/-- Backtracking search for the separator length: try `k` descending;
succeed when the greedy tail run at offset `k` has length ≥ 7.
Returns `(sepLen, tailLen)`. -/
def rrnSepSearch (rest : List Char) : ℕ → Option (ℕ × ℕ)
  | 0 =>
    let t := maxRun rrnTailChar rest
    if 7 ≤ t then some (0, t) else none
  | k1 + 1 =>
    let t := maxRun rrnTailChar (rest.drop (k1 + 1))
    if 7 ≤ t then some (k1 + 1, t) else rrnSepSearch rest k1

/-- Attempt an RRN match anchored at the start of `u`. -/
def rrnAt (u : List Char) : Option (ℕ × ℕ) :=
  if 6 ≤ u.length ∧ (u.take 6).all jsDigit then
    rrnSepSearch (u.drop 6) (maxRun rrnSepChar (u.drop 6))
  else none

/-- Leftmost-match scan: returns `(startIndex, sepLen, tailLen)`. -/
def rrnGo : List Char → ℕ → Option (ℕ × ℕ × ℕ)
  | [], i =>
    match rrnAt [] with
    | some (k, t) => some (i, k, t)
    | none => none
  | u@(_ :: u1), i =>
    match rrnAt u with
    | some (k, t) => some (i, k, t)
    | none => rrnGo u1 (i + 1)

/-- First match of the RRN regex in `s` (JS `s.match(rrnRegex)`). -/
def rrnFind (s : List Char) : Option (ℕ × ℕ × ℕ) := rrnGo s 0

/-- `match[0]` of an RRN match. -/
def rrnMatch0 (s : List Char) (i k t : ℕ) : List Char := (s.drop i).take (6 + k + t)

/-- `match[1]` of an RRN match (the six birth-date digits). -/
def rrnMatch1 (s : List Char) (i : ℕ) : List Char := (s.drop i).take 6

/-- `match[2]` of an RRN match (the tail). -/
def rrnMatch2 (s : List Char) (i k t : ℕ) : List Char := (s.drop (i + 6 + k)).take t

/-- `rrnRegex.test(s)`. -/
def rrnTest (s : String) : Bool := (rrnFind s.data).isSome

/-! ### The driver-license regex `/(\d{2})[^0-9]+(\d{6})[^0-9]+(\d{2})/` -/

/-- Non-digit class `[^0-9]`. -/
def nonDigit (c : Char) : Bool := !jsDigit c

/-- Does `u` start with exactly `n` digits? -/
def digitsPrefix (n : ℕ) (u : List Char) : Bool :=
  decide ((u.take n).length = n) && (u.take n).all jsDigit

/-- Backtracking over the second separator length `k2` (descending,
must stay ≥ 1): succeed when two digits follow. -/
def dlK2Search (w : List Char) : ℕ → Option ℕ
  | 0 => none
  | k2 + 1 =>
    if digitsPrefix 2 (w.drop (k2 + 1)) then some (k2 + 1)
    else dlK2Search w k2

/-- Backtracking over the first separator length `k1` (descending,
must stay ≥ 1). Returns `(k1, k2)`. -/
def dlK1Search (v : List Char) : ℕ → Option (ℕ × ℕ)
  | 0 => none
  | k1 + 1 =>
    let afterSix := (v.drop (k1 + 1)).drop 6
    if digitsPrefix 6 (v.drop (k1 + 1)) then
      match dlK2Search afterSix (maxRun nonDigit afterSix) with
      | some k2 => some (k1 + 1, k2)
      | none => dlK1Search v k1
    else dlK1Search v k1

/-- Attempt a driver-license match anchored at the start of `u`. -/
def dlAt (u : List Char) : Option (ℕ × ℕ) :=
  if digitsPrefix 2 u then
    dlK1Search (u.drop 2) (maxRun nonDigit (u.drop 2))
  else none

/-- Leftmost-match scan: returns `(startIndex, k1, k2)`. -/
def dlGo : List Char → ℕ → Option (ℕ × ℕ × ℕ)
  | [], i =>
    match dlAt [] with
    | some (k1, k2) => some (i, k1, k2)
    | none => none
  | u@(_ :: u1), i =>
    match dlAt u with
    | some (k1, k2) => some (i, k1, k2)
    | none => dlGo u1 (i + 1)

/-- First match of the driver-license regex in `s`. -/
def dlFind (s : List Char) : Option (ℕ × ℕ × ℕ) := dlGo s 0

/-- `match[0]` of a driver-license match. -/
def dlMatch0 (s : List Char) (i k1 k2 : ℕ) : List Char :=
  (s.drop i).take (2 + k1 + 6 + k2 + 2)

/-- `dlRegex.test(s)`. -/
def dlTest (s : String) : Bool := (dlFind s.data).isSome

/-! ### Passport, date, period, authority and identifier-code patterns -/

/-- `passportNumRegex.test`: `/[A-Z][0-9A-Z]{8}/` occurs in `l`. -/
def passportScan : List Char → Bool
  | [] => false
  | c :: cs =>
    (upperAZ c && decide ((cs.take 8).length = 8) && (cs.take 8).all upperOrDigit) ||
    passportScan cs

/-- Consume exactly `n` digit characters. -/
def eatDigits (n : ℕ) (u : List Char) : Option (List Char) :=
  if digitsPrefix n u then some (u.drop n) else none

/-- Consume one character of class `p`. -/
def eatClass (p : Char → Bool) : List Char → Option (List Char)
  | [] => none
  | c :: r => if p c then some r else none

/-- Consume a greedy `\s*` run. (Backtracking never helps here: the
character after a shorter run would itself be whitespace, which none
of the follow-up classes accept, so the maximal run is the unique
viable choice.) -/
def eatWs (u : List Char) : List Char := u.dropWhile jsIsWs

/-- Anchored match of `/\d{4}[.-]\d{2}[.-]\d{2}/`. -/
def dateAt (u : List Char) : Option (List Char) :=
  match eatDigits 4 u with
  | none => none
  | some u1 =>
    match eatClass dotDash u1 with
    | none => none
    | some u2 =>
      match eatDigits 2 u2 with
      | none => none
      | some u3 =>
        match eatClass dotDash u3 with
        | none => none
        | some u4 => eatDigits 2 u4

/-- `/\d{4}[.-]\d{2}[.-]\d{2}/.test(s)`. -/
def dateTestA (s : String) : Bool :=
  let rec go : List Char → Bool
    | [] => (dateAt []).isSome
    | l@(_ :: cs) => (dateAt l).isSome || go cs
  go s.data

/-- Anchored match of `/\d{4}\s*[.\-]\s*\d{2}\s*[.\-]\s*\d{2}/`;
returns the remaining suffix on success. -/
def dateLooseAt (u : List Char) : Option (List Char) :=
  match eatDigits 4 u with
  | none => none
  | some u1 =>
    match eatClass dotDash (eatWs u1) with
    | none => none
    | some u2 =>
      match eatDigits 2 (eatWs u2) with
      | none => none
      | some u3 =>
        match eatClass dotDash (eatWs u3) with
        | none => none
        | some u4 => eatDigits 2 (eatWs u4)

/-- First match of the loose date regex: `(index, length)`. -/
def dateLooseGo : List Char → ℕ → Option (ℕ × ℕ)
  | [], i =>
    match dateLooseAt [] with
    | some rest => some (i, 0 - rest.length)
    | none => none
  | u@(_ :: u1), i =>
    match dateLooseAt u with
    | some rest => some (i, u.length - rest.length)
    | none => dateLooseGo u1 (i + 1)

/-- First match of `/(\d{4}\s*[.\-]\s*\d{2}\s*[.\-]\s*\d{2})/` in `s`. -/
def dateLooseFind (s : String) : Option (ℕ × ℕ) := dateLooseGo s.data 0

/-- Anchored match of the full renewal-period regex
`/\d{4}\s*[.\-]\s*\d{2}\s*[.\-]\s*\d{2}\s*~\s*\d{4}\s*[.\-]\s*\d{2}\s*[.\-]\s*\d{2}/`. -/
def periodAt (u : List Char) : Option (List Char) :=
  match dateLooseAt u with
  | none => none
  | some u1 =>
    match eatClass (· == '~') (eatWs u1) with
    | none => none
    | some u2 => dateLooseAt (eatWs u2)

/-- `periodRegex.test(s)`. -/
def periodTest (s : String) : Bool :=
  let rec go : List Char → Bool
    | [] => (periodAt []).isSome
    | l@(_ :: cs) => (periodAt l).isSome || go cs
  go s.data

/-- Anchored match of `/~\s*\d{4}[.\-]\d{2}[.\-]\d{2}/`. -/
def simplePeriodAt (u : List Char) : Option (List Char) :=
  match eatClass (· == '~') u with
  | none => none
  | some u1 => dateAt (eatWs u1)

/-- `simplePeriodRegex.test(s)`. -/
def simplePeriodTest (s : String) : Bool :=
  let rec go : List Char → Bool
    | [] => (simplePeriodAt []).isSome
    | l@(_ :: cs) => (simplePeriodAt l).isSome || go cs
  go s.data

/-- `keywordPeriodRegex.test(s)`: `/(적성|검사|기간)/`. -/
def keywordPeriodTest (s : String) : Bool :=
  strContains s "적성" || strContains s "검사" || strContains s "기간"

/-- Backtracking over the length of the greedy `[가-힣]+` run
(descending from the maximal run): then try `(지방)?경찰청장`,
with-`지방` first. Returns the anchored match length. -/
def authTry (u : List Char) : ℕ → Option ℕ
  | 0 => none
  | l + 1 =>
    let rest := u.drop (l + 1)
    if startsWithSeq "지방경찰청장".data rest then some (l + 1 + 6)
    else if startsWithSeq "경찰청장".data rest then some (l + 1 + 4)
    else authTry u l

/-- Anchored match of `/[가-힣]+(지방)?경찰청장/`. -/
def authAt (u : List Char) : Option ℕ := authTry u (maxRun hangulSyl u)

/-- First match of the issuing-authority regex: `(index, length)`. -/
def authGo : List Char → ℕ → Option (ℕ × ℕ)
  | [], i =>
    match authAt [] with
    | some len => some (i, len)
    | none => none
  | u@(_ :: u1), i =>
    match authAt u with
    | some len => some (i, len)
    | none => authGo u1 (i + 1)

/-- First match of the issuing-authority regex in `s`. -/
def authFind (s : String) : Option (ℕ × ℕ) := authGo s.data 0

/-- `idNumRegex.test(w) && length = 6 && hasAlpha && hasNum`
(`/^[A-Z0-9]{6}$/` is anchored, so this is a whole-string shape). -/
def idCodeShape (s : String) : Bool :=
  decide (s.data.length = 6) && s.data.all upperOrDigit &&
  s.data.any upperAZ && s.data.any jsDigit

/-! ### Data model -/

/-- `Tesseract.Bbox`: integer pixel coordinates. -/
structure Bbox where
  x0 : ℤ
  y0 : ℤ
  x1 : ℤ
  y1 : ℤ
deriving DecidableEq

/-- OCR word: `{text, bbox, confidence}`. -/
structure OCRWord where
  text : String
  bbox : Bbox
  confidence : ℚ
deriving DecidableEq

/-- OCR line: `{text, bbox, words}`. -/
structure OCRLine where
  text : String
  bbox : Bbox
  words : List OCRWord
deriving DecidableEq

/-- `OCRResult` (ocrHelper.ts): the canonical recognized document. -/
structure OCRResult where
  text : String
  words : List OCRWord
  lines : List OCRLine
deriving DecidableEq

/-- `ParsedField` (idParser). -/
structure ParsedField where
  id : String
  label : String
  value : String
  ids : List String
  bbox : Bbox
deriving DecidableEq

/-- `ParsedIDData` (idParser), with the diagnostics log list. -/
structure ParsedIDData where
  idType : String
  fields : List ParsedField
  logs : List String
deriving DecidableEq

/-- `mergeBBoxes`: componentwise min/max hull, `{0,0,0,0}` when empty. -/
def mergeBBoxes : List Bbox → Bbox
  | [] => ⟨0, 0, 0, 0⟩
  | b :: bs =>
    (bs.foldl (fun acc x =>
      ⟨min acc.x0 x.x0, min acc.y0 x.y0, max acc.x1 x.x1, max acc.y1 x.y1⟩) b)

/-- `interpolateBBox`: proportional horizontal sub-box with 15 % vertical
shrink.  The source divides `width / totalLength` without a guard; with
`totalLength = 0` the JS computation yields non-finite (NaN/∞)
coordinates, which this model represents as `none`. -/
def interpolateBBox (fullBBox : Bbox) (totalLength start len : ℤ) : Option Bbox :=
  if totalLength = 0 then none
  else
    let width : ℚ := ((fullBBox.x1 : ℚ) - fullBBox.x0)
    let charWidth : ℚ := width / (totalLength : ℚ)
    let x0 : ℚ := (fullBBox.x0 : ℚ) + charWidth * (start : ℚ)
    let x1 : ℚ := (fullBBox.x0 : ℚ) + charWidth * ((start : ℚ) + (len : ℚ))
    let height : ℚ := ((fullBBox.y1 : ℚ) - fullBBox.y0)
    let verticalPadding : ℚ := height * (0.15 : ℚ)
    some ⟨⌊x0⌋, ⌊(fullBBox.y0 : ℚ) + verticalPadding⌋, ⌈x1⌉, ⌈(fullBBox.y1 : ℚ) - verticalPadding⌉⟩

/-- Total wrapper used at the `parseOCRResult` call sites.  Every call
in the source passes a positive `totalLength` (the visible span of a
nonempty match, or the length of a line that matched a date), so the
`none` default is unreachable there. -/
def interpolateBBoxD (fullBBox : Bbox) (totalLength start len : ℤ) : Bbox :=
  (interpolateBBox fullBBox totalLength start len).getD ⟨0, 0, 0, 0⟩

/-! ### RRN extraction (idParser lines 77-223) -/

/-- Index of the `n`-th (0-based) digit character of `l`. -/
def nthDigitIdx : List Char → ℕ → ℕ → Option ℕ
  | [], _, _ => none
  | c :: cs, n, i =>
    if jsDigit c then
      if n = 0 then some i else nthDigitIdx cs (n - 1) (i + 1)
    else nthDigitIdx cs n (i + 1)

/-- Indices of all digit characters of `l`, in order. -/
def digitIdxsFrom : List Char → ℕ → List ℕ
  | [], _ => []
  | c :: cs, i =>
    if jsDigit c then i :: digitIdxsFrom cs (i + 1) else digitIdxsFrom cs (i + 1)

/-- Per-line body of the RRN `forEach` (fields pushed, logs pushed). -/
def rrnLineOut (line : OCRLine) (idx : ℕ) : List ParsedField × List String :=
  let s := line.text.data
  match rrnFind s with
  | none => ([], [])
  | some (i, k, t) =>
    let matchString := rrnMatch0 s i k t
    let birthPartRaw := rrnMatch1 s i
    let backPartRaw := jsTrim (rrnMatch2 s i k t)
    let backDigits := digitsOf backPartRaw
    if 13 ≤ birthPartRaw.length + backDigits.length then
      let parent : ParsedField :=
        ⟨"rrn-" ++ Nat.repr idx, "주민등록번호", String.mk matchString,
          ["line-" ++ Nat.repr idx], line.bbox⟩
      let foundLog := "Found RRN on line " ++ Nat.repr idx ++ ": " ++ String.mk matchString
      let firstVisibleIdx : ℕ := maxRun jsIsWs matchString
      let lastVisibleIdx : ℤ := (matchString.length : ℤ) - 1 - (maxRun jsIsWs matchString.reverse : ℤ)
      let visibleLength : ℤ :=
        if (firstVisibleIdx : ℤ) ≤ lastVisibleIdx then lastVisibleIdx - firstVisibleIdx + 1
        else (matchString.length : ℤ)
      let birthStartIndex : ℤ := jsIndexOf matchString birthPartRaw
      let birthLength : ℕ := birthPartRaw.length
      let noiseTriple : List Char × ℕ × List String :=
        if backDigits.length = 8 then
          (backDigits.drop 1, 1,
            ["Back part has 8 digits. Assuming 1st digit " ++ String.singleton (Char.ofNat 39) ++
              String.mk (backDigits.take 1) ++ String.singleton (Char.ofNat 39) ++ " is noise"])
        else (backDigits, 0, [])
      let validBackDigits := noiseTriple.1
      let skipLeadingChars : ℕ := noiseTriple.2.1
      let noiseLogs : List String := noiseTriple.2.2
      if validBackDigits.length < 7 then
        ([parent], [foundLog] ++ noiseLogs ++
          ["Back part has insufficient digits even after noise check"])
      else
        let genderVal := String.mk (validBackDigits.take 1)
        let backNumVal := String.mk ((validBackDigits.drop 1).take 6)
        let backPartStartInMatch : ℤ := jsIndexOf matchString backPartRaw
        let relativeGenderIdx : ℤ :=
          match nthDigitIdx backPartRaw skipLeadingChars 0 with
          | some p => (p : ℤ)
          | none => 0
        let genderGlobalIndex : ℤ := backPartStartInMatch + relativeGenderIdx
        let afterGender := (digitIdxsFrom backPartRaw 0).filter
          (fun p => decide (relativeGenderIdx < (p : ℤ)))
        let sixAfter := afterGender.take 6
        let relativeBackStartIdx : ℤ :=
          match sixAfter.head? with
          | some p => (p : ℤ)
          | none => relativeGenderIdx + 1
        let relativeBackEndIdx : ℤ :=
          match sixAfter.getLast? with
          | some p => (p : ℤ)
          | none => (backPartRaw.length : ℤ) - 1
        let backNumGlobalIndex : ℤ := backPartStartInMatch + relativeBackStartIdx
        let backNumLength : ℤ := relativeBackEndIdx - relativeBackStartIdx + 1
        let birthBBox := interpolateBBoxD line.bbox visibleLength
          (birthStartIndex - firstVisibleIdx) (birthLength : ℤ)
        let genderBBox := interpolateBBoxD line.bbox visibleLength
          (genderGlobalIndex - firstVisibleIdx) 1
        let backBBox0 := interpolateBBoxD line.bbox visibleLength
          (backNumGlobalIndex - firstVisibleIdx) backNumLength
        let backBBox : Bbox := { backBBox0 with x0 := backBBox0.x0 + 2 }
        ([parent,
          ⟨"rrn-birth-" ++ Nat.repr idx, "생년월일", String.mk birthPartRaw,
            ["line-" ++ Nat.repr idx ++ "-birth"], birthBBox⟩,
          ⟨"rrn-gender-" ++ Nat.repr idx, "성별", genderVal,
            ["line-" ++ Nat.repr idx ++ "-gender"], genderBBox⟩,
          ⟨"rrn-back-" ++ Nat.repr idx, "주민번호 뒷자리", backNumVal,
            ["line-" ++ Nat.repr idx ++ "-back"], backBBox⟩],
         [foundLog] ++ noiseLogs)
    else
      ([], ["Potential RRN match on line " ++ Nat.repr idx ++ " too short/invalid patterns"])

/-- The RRN section: `lines.forEach` with running index. -/
def rrnScanFrom : List OCRLine → ℕ → List ParsedField × List String
  | [], _ => ([], [])
  | l :: ls, idx =>
    let here := rrnLineOut l idx
    let rest := rrnScanFrom ls (idx + 1)
    (here.1 ++ rest.1, here.2 ++ rest.2)

/-! ### Driver-license and passport sections (idParser lines 226-257) -/

/-- Per-line body of the driver-license `forEach`. -/
def dlLineOut (line : OCRLine) (idx : ℕ) : List ParsedField × List String :=
  let s := line.text.data
  match dlFind s with
  | none => ([], [])
  | some (i, k1, k2) =>
    let m0 := dlMatch0 s i k1 k2
    let digits := digitsOf m0
    if 10 ≤ digits.length then
      ([⟨"dl-num-" ++ Nat.repr idx, "운전면허번호", String.mk m0,
          ["line-" ++ Nat.repr idx], line.bbox⟩],
       ["Found DL on line " ++ Nat.repr idx ++ ": " ++ String.mk m0])
    else
      ([], ["Potential DL match on line " ++ Nat.repr idx ++ " too short: " ++
        Nat.repr digits.length])

/-- The driver-license section. -/
def dlScanFrom : List OCRLine → ℕ → List ParsedField × List String
  | [], _ => ([], [])
  | l :: ls, idx =>
    let here := dlLineOut l idx
    let rest := dlScanFrom ls (idx + 1)
    (here.1 ++ rest.1, here.2 ++ rest.2)

/-- Per-word body of the passport `forEach`. -/
def passportWordOut (word : OCRWord) (idx : ℕ) : List ParsedField × List String :=
  if decide (word.text.data.length = 9) && passportScan word.text.data then
    ([⟨"passport-num-" ++ Nat.repr idx, "여권번호", word.text, [], word.bbox⟩],
     ["Found Passport Num in word " ++ Nat.repr idx ++ ": " ++ word.text])
  else ([], [])

/-- The passport section. -/
def passportScanFrom : List OCRWord → ℕ → List ParsedField × List String
  | [], _ => ([], [])
  | w :: ws, idx =>
    let here := passportWordOut w idx
    let rest := passportScanFrom ws (idx + 1)
    (here.1 ++ rest.1, here.2 ++ rest.2)

/-! ### Document-type determination (idParser lines 260-287) -/

/-- Driver-license keyword test: `text.includes("운전") ||
text.toLowerCase().includes("driver")`. -/
def hasDriverKw (text : String) : Bool :=
  strContains text "운전" || strContains (jsToLower text) "driver"

/-- Resident-card keyword test: `text.includes("주민") || text.includes("등록증")`. -/
def hasResidentKw (text : String) : Bool :=
  strContains text "주민" || strContains text "등록증"

/-- Passport keyword test: `text.includes("여권") || text.includes("PASSPORT")`. -/
def hasPassportKw (text : String) : Bool :=
  strContains text "여권" || strContains text "PASSPORT"

/-- Is some candidate field labelled `label` present? -/
def hasFieldLabel (fields : List ParsedField) (label : String) : Bool :=
  fields.any (fun f => f.label == label)

/-- The keyword / field-fallback classification chain. -/
def determineIdType (text : String) (fields : List ParsedField) : String × List String :=
  if hasDriverKw text then
    ("운전면허증", ["ID Type inferred from keywords: 운전면허증"])
  else if hasResidentKw text then
    ("주민등록증", ["ID Type inferred from keywords: 주민등록증"])
  else if hasPassportKw text then
    ("여권", ["ID Type inferred from keywords: 여권"])
  else
    let hasDL := hasFieldLabel fields "운전면허번호"
    let hasPassport := hasFieldLabel fields "여권번호"
    let hasRRN := hasFieldLabel fields "주민등록번호"
    if hasDL then ("운전면허증", ["ID Type inferred from fields: 운전면허증"])
    else if hasPassport then ("여권", ["ID Type inferred from fields: 여권"])
    else if hasRRN then ("주민등록증(추정)", ["ID Type inferred from fields: 주민등록증(추정)"])
    else ("Unknown", ["ID Type Unknown - No keywords or specific fields found"])

/-! ### Address extraction (idParser lines 292-343) -/

/-- The gazetteer of region names. -/
def regionNames : List String :=
  ["서울", "부산", "대구", "인천", "광주", "대전", "울산", "세종",
   "경기", "강원", "충청", "충북", "충남", "전라", "전북", "전남", "경상", "경북", "경남", "제주",
   "경기도", "강원도", "충청북도", "충청남도", "전라북도", "전라남도", "경상북도", "경상남도", "제주도"]

/-- Anchor test: region token in the raw or whitespace-stripped line text. -/
def hasRegionTok (line : OCRLine) : Bool :=
  let stripped := line.text.data.filter (fun c => !jsIsWs c)
  regionNames.any (fun r => strContains line.text r || containsSeq stripped r.data)

/-- `gap > currentHeight * 2.5` (the absorption stop test on heights). -/
def gapExceeds (gap h : ℤ) : Bool := decide (((h : ℚ) * (2.5 : ℚ)) < (gap : ℚ))

/-- The absorption loop `for j in 1..3`: reads `lines[i+j]`, computes
the gap to `lines[i+j-1]`, compares it against 2.5× the height of the
anchor `lines[i]`, and stops at the first violating line. `rem` is the
remaining number of iterations. -/
def absorbFrom (lines : List OCRLine) (i : ℕ) (anchorH : ℤ) : ℕ → ℕ → List OCRLine
  | _, 0 => []
  | j, rem + 1 =>
    match lines.get? (i + j) with
    | none => []
    | some next =>
      match lines.get? (i + j - 1) with
      | none => []
      | some prevL =>
        let gap : ℤ := next.bbox.y0 - prevL.bbox.y1
        if gapExceeds gap anchorH then []
        else if dateTestA next.text then []
        else if dlTest next.text then []
        else if rrnTest next.text then []
        else next :: absorbFrom lines i anchorH (j + 1) rem

/-- Body of the address `for` loop at anchor index `i`. -/
def addressAtAnchor (lines : List OCRLine) (fields : List ParsedField)
    (anchor : OCRLine) (i : ℕ) : List ParsedField × List String × Bool :=
  let anchorH := anchor.bbox.y1 - anchor.bbox.y0
  let addressLines := anchor :: absorbFrom lines i anchorH 1 3
  let mergedBBox := mergeBBoxes (addressLines.map (·.bbox))
  let isDLLine := fields.any (fun f =>
    f.label == "운전면허번호" && decide (|f.bbox.y0 - anchor.bbox.y0| < 10))
  if !isDLLine then
    ([⟨"addr-" ++ Nat.repr i, "주소",
        String.intercalate " " (addressLines.map (·.text)),
        (List.range addressLines.length).map
          (fun idx => "addr-line-" ++ Nat.repr i ++ "-" ++ Nat.repr idx),
        mergedBBox⟩],
     ["Found Address starting at line " ++ Nat.repr i], true)
  else
    ([], ["Skipped potential address at line " ++ Nat.repr i ++
      " because it overlaps with DL number"], false)

/-- The address scan: first qualifying anchor wins (`break`), an
anchor skipped for DL-coincidence keeps the loop going. -/
def addressScanFrom (lines : List OCRLine) (fields : List ParsedField) :
    List OCRLine → ℕ → List ParsedField × List String
  | [], _ => ([], [])
  | l :: ls, i =>
    if hasRegionTok l then
      let out := addressAtAnchor lines fields l i
      if out.2.2 then (out.1, out.2.1)
      else
        let rest := addressScanFrom lines fields ls (i + 1)
        (out.1 ++ rest.1, out.2.1 ++ rest.2)
    else addressScanFrom lines fields ls (i + 1)

/-! ### Driver-license-only extras (idParser lines 346-452) -/

/-- Is the line a renewal-period line (any of the three period tests)? -/
def isPeriodLine (s : String) : Bool :=
  periodTest s || simplePeriodTest s || keywordPeriodTest s

/-- Per-line body of the renewal-period `forEach`. -/
def periodLineOut (line : OCRLine) (idx : ℕ) : List ParsedField × List String :=
  if isPeriodLine line.text then
    if dateTestA line.text then
      ([⟨"period-" ++ Nat.repr idx, "갱신기간", line.text, [], line.bbox⟩],
       ["Found Period at line " ++ Nat.repr idx])
    else ([], [])
  else ([], [])

/-- The renewal-period section. -/
def periodScanFrom : List OCRLine → ℕ → List ParsedField × List String
  | [], _ => ([], [])
  | l :: ls, idx =>
    let here := periodLineOut l idx
    let rest := periodScanFrom ls (idx + 1)
    (here.1 ++ rest.1, here.2 ++ rest.2)

/-- Substring `s[start..start+len)` as a string. -/
def subStr (s : String) (start len : ℕ) : String := String.mk ((s.data.drop start).take len)

/-- Issue-date scan body for one line at index `i` (the bottom-up
loop's `if (match)` body); returns `none` to keep scanning. -/
def issueLineOut (fields : List ParsedField) (line : OCRLine) (i : ℕ) :
    Option (List ParsedField × List String) :=
  match dateLooseFind line.text with
  | none => none
  | some (dateIndex, dateLen) =>
    let isPeriod := periodTest line.text || simplePeriodTest line.text ||
      strContains line.text "기간" || strContains line.text "적성"
    let isRRNLine := fields.any (fun f =>
      f.label == "주민등록번호" && decide (|f.bbox.y0 - line.bbox.y0| < 10))
    if !isPeriod && !isRRNLine then
      match authFind line.text with
      | some (authIndex, authLen) =>
        let dateBBox := interpolateBBoxD line.bbox (line.text.data.length : ℤ)
          (dateIndex : ℤ) (dateLen : ℤ)
        let authBBox := interpolateBBoxD line.bbox (line.text.data.length : ℤ)
          (authIndex : ℤ) (authLen : ℤ)
        some ([⟨"issue-date-" ++ Nat.repr i, "발급일", subStr line.text dateIndex dateLen,
                 [], dateBBox⟩,
               ⟨"issue-authority-" ++ Nat.repr i, "발급기관", subStr line.text authIndex authLen,
                 [], authBBox⟩],
              ["Found Issue Date & Authority at line " ++ Nat.repr i ++ " (Split)"])
      | none =>
        some ([⟨"issue-date-" ++ Nat.repr i, "발급일", subStr line.text dateIndex dateLen,
                 [], line.bbox⟩],
              ["Found Issue Date at line " ++ Nat.repr i])
    else none

/-- Bottom-up issue-date loop over `(index, line)` pairs listed from
the last line to the first; stops at the first qualifying line. -/
def issueScanRev (fields : List ParsedField) :
    List (ℕ × OCRLine) → List ParsedField × List String
  | [] => ([], [])
  | (i, l) :: rest =>
    match issueLineOut fields l i with
    | some out => out
    | none => issueScanRev fields rest

/-- Per-word body of the identifier-code `forEach` (no log pushes). -/
def idCodeWordOut (word : OCRWord) (idx : ℕ) : List ParsedField :=
  if idCodeShape word.text then
    [⟨"id-code-" ++ Nat.repr idx, "식별번호", word.text, [], word.bbox⟩]
  else []

/-- The identifier-code section. -/
def idCodeScanFrom : List OCRWord → ℕ → List ParsedField
  | [], _ => []
  | w :: ws, idx => idCodeWordOut w idx ++ idCodeScanFrom ws (idx + 1)

/-! ### `parseOCRResult` (idParser lines 51-464) -/

/-- `parseOCRResult`: the whole parsing pipeline, assembling sections
in source order (RRN, DL, passport, type determination, address,
then the driver-license-only extras). -/
def parseOCRResult (result : OCRResult) : ParsedIDData :=
  let text := result.text
  let lines := result.lines
  let words := result.words
  let statsLog := "Text len: " ++ Nat.repr text.data.length ++ ", Lines: " ++
    Nat.repr lines.length ++ ", Words: " ++ Nat.repr words.length
  let rrnOut := rrnScanFrom lines 0
  let dlOut := dlScanFrom lines 0
  let ppOut := passportScanFrom words 0
  let fields1 := rrnOut.1 ++ dlOut.1 ++ ppOut.1
  let typeOut := determineIdType text fields1
  let idType := typeOut.1
  let addrOut := addressScanFrom lines fields1 lines 0
  let fields2 := fields1 ++ addrOut.1
  let baseLogs := [statsLog] ++ rrnOut.2 ++ dlOut.2 ++ ppOut.2 ++ typeOut.2 ++ addrOut.2
  if strContains idType "운전면허증" then
    let periodOut := periodScanFrom lines 0
    let fields3 := fields2 ++ periodOut.1
    let issueOut := issueScanRev fields3 lines.enum.reverse
    let fields4 := fields3 ++ issueOut.1
    let idCodeFs := idCodeScanFrom words 0
    ⟨idType, fields4 ++ idCodeFs, baseLogs ++ periodOut.2 ++ issueOut.2⟩
  else
    ⟨idType, fields2, baseLogs⟩

/-! ### MaskingWorkspace region synthesis -/

/-- `MaskingRegion` (MaskingWorkspace.tsx). -/
structure MaskingRegion where
  id : String
  type : String
  bbox : Bbox
  text : String
deriving DecidableEq

/-- Promotion of every parsed field to a masking region. -/
def toMaskingRegions (fields : List ParsedField) : List MaskingRegion :=
  fields.map (fun f => ⟨f.id, f.label, f.bbox, f.value⟩)

/-- The per-candidate overlap test of the `isOverlapping` check:
intersect, and when the intersection is nondegenerate compare
`intersectionArea / lineArea > 0.3`. -/
def overlapCheck (lineB srB : Bbox) : Bool :=
  let x0 := max lineB.x0 srB.x0
  let y0 := max lineB.y0 srB.y0
  let x1 := min lineB.x1 srB.x1
  let y1 := min lineB.y1 srB.y1
  if x0 < x1 ∧ y0 < y1 then
    let intersectionArea : ℚ := ((x1 - x0 : ℤ) : ℚ) * ((y1 - y0 : ℤ) : ℚ)
    let lineArea : ℚ := ((lineB.x1 - lineB.x0 : ℤ) : ℚ) * ((lineB.y1 - lineB.y0 : ℤ) : ℚ)
    decide ((0.3 : ℚ) < intersectionArea / lineArea)
  else false

/-- The `OtherText` pass: one `raw-line-<idx>` region of type `Text`
for every line that no sensitive region claims (ratio > 0.3) and whose
trimmed text is nonempty. -/
def otherRegionsFrom (sens : List MaskingRegion) : List OCRLine → ℕ → List MaskingRegion
  | [], _ => []
  | l :: ls, idx =>
    let isOverlapping := sens.any (fun sr => overlapCheck l.bbox sr.bbox)
    (if !isOverlapping && decide (0 < (jsTrim l.text.data).length) then
      [⟨"raw-line-" ++ Nat.repr idx, "Text", l.bbox, l.text⟩]
    else []) ++ otherRegionsFrom sens ls (idx + 1)

/-- The fixed sensitive set used for default selection. -/
def sensitiveTypes : List String := ["주민등록번호", "운전면허번호", "여권번호"]

/-- Region ids selected by default (`defaultSelected`). -/
def defaultSelectedIds (regions : List MaskingRegion) : List String :=
  (regions.filter (fun r => sensitiveTypes.contains r.type)).map (·.id)

/-- The full synthesized region list: promoted sensitive regions
followed by the `OtherText` regions. -/
def synthesizeRegions (fields : List ParsedField) (lines : List OCRLine) : List MaskingRegion :=
  let sens := toMaskingRegions fields
  sens ++ otherRegionsFrom sens lines 0

/-! ### Structure recovery (`performOCR`, ocrHelper.ts lines 288-364) -/

/-- A Tesseract paragraph node. -/
structure TessPara where
  lines : List OCRLine
deriving DecidableEq

/-- A Tesseract block node. -/
structure TessBlock where
  paragraphs : List TessPara
deriving DecidableEq

/-- An `ocrx_word` node of the parsed hOCR DOM: its `title` attribute
and its text content. (DOM parsing itself is the browser's
`DOMParser`; the model starts from the node list it yields.) -/
structure HocrWordNode where
  title : String
  content : String
deriving DecidableEq

/-- An `ocr_line` node of the parsed hOCR DOM. -/
structure HocrLineNode where
  title : String
  content : String
  words : List HocrWordNode
deriving DecidableEq

/-- The loosely-typed OCR engine output. Absent arrays are modelled as
empty lists (same observable behaviour in every branch condition);
`hocr` is `none` when absent or the empty string (both falsy). -/
structure RawOcrOutput where
  blocks : List TessBlock
  lines : List OCRLine
  words : List OCRWord
  hocr : Option (List HocrLineNode)
  text : String

/-- Decimal value of a digit run (JS `parseInt`). -/
def natOfDigits (l : List Char) : ℕ := l.foldl (fun a c => a * 10 + (c.toNat - 48)) 0

/-- Consume `(\d+) ` — a maximal digit run (≥ 1) that must be followed
by a space, which is also consumed. -/
def eatNumSp (u : List Char) : Option (ℕ × List Char) :=
  let run := u.takeWhile jsDigit
  if run.isEmpty then none
  else
    match u.drop run.length with
    | ' ' :: r => some (natOfDigits run, r)
    | _ => none

/-- Consume a final `(\d+)` — a maximal digit run (≥ 1). -/
def eatNum (u : List Char) : Option (ℕ × List Char) :=
  let run := u.takeWhile jsDigit
  if run.isEmpty then none else some (natOfDigits run, u.drop run.length)

/-- Anchored match of `/bbox (\d+) (\d+) (\d+) (\d+)/`. -/
def bboxAt (u : List Char) : Option (ℕ × ℕ × ℕ × ℕ) :=
  if startsWithSeq "bbox ".data u then
    match eatNumSp (u.drop 5) with
    | none => none
    | some (a, u1) =>
      match eatNumSp u1 with
      | none => none
      | some (b, u2) =>
        match eatNumSp u2 with
        | none => none
        | some (c, u3) =>
          match eatNum u3 with
          | none => none
          | some (d, _) => some (a, b, c, d)
  else none

/-- Leftmost match of the bbox pattern in a node title. -/
def bboxScanGo : List Char → Option (ℕ × ℕ × ℕ × ℕ)
  | [] => bboxAt []
  | u@(_ :: u1) =>
    match bboxAt u with
    | some q => some q
    | none => bboxScanGo u1

/-- Title attribute → bbox, `{0,0,0,0}` when the pattern is absent. -/
def parseBboxTitle (title : String) : Bbox :=
  match bboxScanGo title.data with
  | some (a, b, c, d) => ⟨(a : ℤ), (b : ℤ), (c : ℤ), (d : ℤ)⟩
  | none => ⟨0, 0, 0, 0⟩

/-- `parseHOCR`: per line node, parse the bbox, map the word nodes
(confidence 100), join word texts with spaces falling back to the
node's trimmed text content, and keep only nonempty lines. -/
def parseHOCR (nodes : List HocrLineNode) : List OCRLine :=
  nodes.flatMap (fun ln =>
    let bbox := parseBboxTitle ln.title
    let ws : List OCRWord := ln.words.map (fun w => ⟨w.content, parseBboxTitle w.title, 100⟩)
    let lineText := String.intercalate " " (ws.map (·.text))
    let finalLineText := if lineText == "" then jsTrimS ln.content else lineText
    if finalLineText == "" then [] else [⟨finalLineText, bbox, ws⟩])

/-- The word sort comparator of `reconstructLinesFromWords`. -/
def jsWordCmp (a b : OCRWord) : ℤ :=
  let yDiff := a.bbox.y0 - b.bbox.y0
  if |yDiff| < 10 then a.bbox.x0 - b.bbox.x0 else yDiff

/-- Stable insertion of `x` into `l`: `x` goes before the first
element it compares strictly below. -/
def sortInsert (x : OCRWord) : List OCRWord → List OCRWord
  | [] => [x]
  | y :: ys => if jsWordCmp x y < 0 then x :: y :: ys else y :: sortInsert x ys

/-- Stable sort by `jsWordCmp`, modelling ES2019+
`Array.prototype.sort` (specified stable; insertion sort realizes the
same order for a consistent comparator). -/
def jsSortWords (l : List OCRWord) : List OCRWord :=
  l.foldl (fun acc x => sortInsert x acc) []

/-- A line being accumulated by the clustering walk. -/
structure BuildLine where
  ws : List OCRWord
  bbox : Bbox
deriving DecidableEq

/-- The vertical-center proximity test of the clustering walk:
`|lineCenter - wordCenter| < lineHeight * 0.6`. -/
def closePair (cb wb : Bbox) : Bool :=
  decide (|((cb.y0 + cb.y1 : ℤ) : ℚ) / 2 - ((wb.y0 + wb.y1 : ℤ) : ℚ) / 2|
    < ((cb.y1 - cb.y0 : ℤ) : ℚ) * (0.6 : ℚ))

/-- Componentwise bbox union update of the running line. -/
def unionBbox (b w : Bbox) : Bbox :=
  ⟨min b.x0 w.x0, min b.y0 w.y0, max b.x1 w.x1, max b.y1 w.y1⟩

/-- Close the running line: text is the space-join of its word texts. -/
def finishLine (cur : BuildLine) : OCRLine :=
  ⟨String.intercalate " " (cur.ws.map (·.text)), cur.bbox, cur.ws⟩

/-- The clustering walk over the sorted words. -/
def clusterGo : Option BuildLine → List OCRWord → List OCRLine
  | none, [] => []
  | some cur, [] => [finishLine cur]
  | none, w :: ws => clusterGo (some ⟨[w], w.bbox⟩) ws
  | some cur, w :: ws =>
    if closePair cur.bbox w.bbox then
      clusterGo (some ⟨cur.ws ++ [w], unionBbox cur.bbox w.bbox⟩) ws
    else
      finishLine cur :: clusterGo (some ⟨[w], w.bbox⟩) ws

/-- `reconstructLinesFromWords`. -/
def reconstructLinesFromWords (words : List OCRWord) : List OCRLine :=
  clusterGo none (jsSortWords words)

/-- Split on `/\r?\n/`. -/
def splitNlGo : List Char → List Char → List String
  | cur, [] => [String.mk cur.reverse]
  | cur, '\r' :: '\n' :: rest => String.mk cur.reverse :: splitNlGo [] rest
  | cur, '\n' :: rest => String.mk cur.reverse :: splitNlGo [] rest
  | cur, c :: rest => splitNlGo (c :: cur) rest

/-- `text.split(/\r?\n/)`. -/
def splitNlS (s : String) : List String := splitNlGo [] s.data

/-- Split on `/\s+/` (keeping boundary empty pieces, as JS does). -/
def splitWsGo : List Char → List Char → List String
  | cur, [] => [String.mk cur.reverse]
  | cur, c :: rest =>
    if jsIsWs c then String.mk cur.reverse :: splitWsGo [] (rest.dropWhile jsIsWs)
    else splitWsGo (c :: cur) rest
termination_by _ l => l.length
decreasing_by
  all_goals simp_wf
  all_goals have h := (List.dropWhile_sublist (p := jsIsWs) (l := rest)).length_le
  all_goals omega

/-- `lineText.split(/\s+/)`. -/
def splitWsS (s : String) : List String := splitWsGo [] s.data

/-- The raw-text fallback: synthetic stacked line boxes, words spread
at a fixed width. -/
def rawTextLines (text : String) : List OCRLine :=
  ((splitNlS text).filter (fun l => 0 < (jsTrim l.data).length)).enum.map
    (fun p =>
      let index := p.1
      let lineText := p.2
      ⟨lineText,
        ⟨0, (index : ℤ) * 20, 500, (index : ℤ) * 20 + 18⟩,
        (splitWsS lineText).enum.map (fun q =>
          ⟨q.2, ⟨(q.1 : ℤ) * 50, (index : ℤ) * 20, (q.1 : ℤ) * 50 + 40, (index : ℤ) * 20 + 18⟩,
            0⟩)⟩)

/-- Ordered concatenation of the per-line word arrays. -/
def flattenWords (lines : List OCRLine) : List OCRWord := lines.flatMap (·.words)

/-- The native line set: nested block→paragraph→line flattening,
falling back to the top-level `lines` array when that is empty. -/
def nativeLines (raw : RawOcrOutput) : List OCRLine :=
  let blockLines := raw.blocks.flatMap (fun b => b.paragraphs.flatMap (·.lines))
  if blockLines.length = 0 then raw.lines else blockLines

/-- Which recovery strategy the fallback chain fires. -/
inductive RecoveryPath where
  | native
  | hocrPath
  | wordCluster
  | rawText
  | emptyPath
deriving DecidableEq

/-- The branch taken by the fallback chain of `performOCR`. -/
def recoveryPath (raw : RawOcrOutput) : RecoveryPath :=
  if (nativeLines raw).length = 0 then
    if raw.words.length = 0 then
      match raw.hocr with
      | some _ => .hocrPath
      | none => if raw.text ≠ "" then .rawText else .emptyPath
    else .wordCluster
  else .native

/-- The structure-recovery half of `performOCR` (after the engine
call): the fallback chain native lines → hOCR parse → word clustering
→ raw-text synthesis, then the final (identity) reshaping into
`OCRResult`. -/
def performOCRStructure (raw : RawOcrOutput) : OCRResult :=
  let lines1 := nativeLines raw
  let words0 := raw.words
  let lw : List OCRLine × List OCRWord :=
    if lines1.length = 0 then
      if words0.length = 0 then
        match raw.hocr with
        | some hn =>
          let hl := parseHOCR hn
          (hl, flattenWords hl)
        | none =>
          if raw.text ≠ "" then
            let rl := rawTextLines raw.text
            (rl, flattenWords rl)
          else (lines1, words0)
      else (reconstructLinesFromWords words0, words0)
    else (lines1, words0)
  ⟨raw.text, lw.2, lw.1⟩

/-! ### Claim-side formulations for region synthesis -/

/-- The intersection of two boxes. -/
def interBox (lb sb : Bbox) : Bbox :=
  ⟨max lb.x0 sb.x0, max lb.y0 sb.y0, min lb.x1 sb.x1, min lb.y1 sb.y1⟩

/-- The claim's overlap condition: a nondegenerate intersection whose
area exceeds 3/10 of the line's own area. -/
def overlapRatioOver (lb sb : Bbox) : Prop :=
  (interBox lb sb).x0 < (interBox lb sb).x1 ∧ (interBox lb sb).y0 < (interBox lb sb).y1 ∧
  (3 : ℚ) / 10 <
    ((((interBox lb sb).x1 - (interBox lb sb).x0) * ((interBox lb sb).y1 - (interBox lb sb).y0) : ℤ) : ℚ) /
    (((lb.x1 - lb.x0) * (lb.y1 - lb.y0) : ℤ) : ℚ)

instance (lb sb : Bbox) : Decidable (overlapRatioOver lb sb) := by
  unfold overlapRatioOver
  exact instDecidableAnd

/-- Fixture: five stacked lines. -/
def fiveLines : List OCRLine :=
  [⟨"a", ⟨0, 0, 100, 18⟩, []⟩, ⟨"b", ⟨0, 20, 100, 38⟩, []⟩, ⟨"c", ⟨0, 40, 100, 58⟩, []⟩,
   ⟨"d", ⟨0, 60, 100, 78⟩, []⟩, ⟨"e", ⟨0, 80, 100, 98⟩, []⟩]

/-- Fixture: two accepted candidates claiming the 2nd and 4th line. -/
def fiveCands : List MaskingRegion :=
  [⟨"rrn-1", "주민등록번호", ⟨0, 20, 100, 38⟩, "b"⟩,
   ⟨"dl-num-3", "운전면허번호", ⟨0, 60, 100, 78⟩, "d"⟩]

/-! ### Claim-side formulation of address absorption -/

/-- Absorption as the amended claim words it: walk at most `fuel`
following lines, stopping at the first whose vertical gap to the
previous absorbed line exceeds 2.5× the ANCHOR line's height
(`anchorH`), or whose text matches the standalone-date,
driver-license or RRN patterns. -/
def specAbsorb (anchorH : ℤ) : OCRLine → List OCRLine → ℕ → List OCRLine
  | _, _, 0 => []
  | _, [], _ + 1 => []
  | prevL, next :: rest, fuel + 1 =>
    if gapExceeds (next.bbox.y0 - prevL.bbox.y1) anchorH then []
    else if dateTestA next.text then []
    else if dlTest next.text then []
    else if rrnTest next.text then []
    else next :: specAbsorb anchorH next rest fuel

def doc810627 (b : Bbox) : OCRResult :=
  ⟨"810627-1234567", [], [⟨"810627-1234567", b, []⟩]⟩

/-- C1 counterexample fixture: a native line but empty top-level words. -/
def rawNativeCE : RawOcrOutput :=
  ⟨[], [⟨"L", ⟨0, 0, 10, 10⟩, [⟨"L", ⟨0, 0, 10, 10⟩, 1⟩]⟩], [], none, ""⟩

/-! ## Theorems -/

/-- Evaluation helper for concrete ceilings. -/
theorem ceilEval (a : ℚ) (z : ℤ) (h1 : (z : ℚ) - 1 < a) (h2 : a ≤ (z : ℚ)) : ⌈a⌉ = z :=
  Int.ceil_eq_iff.mpr ⟨h1, h2⟩

/-- Helper: a ceiling stays below a floor across a unit gap. -/
theorem ceil_le_floor_gap (a b : ℚ) (h : a + 1 ≤ b) : ⌈a⌉ ≤ ⌊b⌋ := by
  have h1 : (⌈a⌉ : ℚ) ≤ b := le_trans (by linarith [Int.ceil_lt_add_one a]) h
  exact Int.le_floor.mpr h1

/-- C8: `interpolateBBox` has no divide-by-zero guard.  With an empty
visible span (`totalLength = 0`) the JS computation produces
non-finite coordinates (modelled `none`) instead of falling back to
the full line bbox, and with a zero-width line bbox it returns the
collapsed sub-box `{10,3,10,17}`, again not the full line bbox. -/
theorem C8_interpolate_unguarded :
    interpolateBBox ⟨0, 0, 100, 20⟩ 0 0 1 = none ∧
    interpolateBBox ⟨10, 0, 10, 20⟩ 5 2 1 = some ⟨10, 3, 10, 17⟩ ∧
    some (⟨10, 0, 10, 20⟩ : Bbox) ≠ some (⟨10, 3, 10, 17⟩ : Bbox) := by
  refine ⟨rfl, ?_, by decide⟩
  simp only [interpolateBBox, if_neg (by decide : ¬(5 : ℤ) = 0)]
  have hcl : ⌈(((10 : ℤ) : ℚ) + (((10 : ℤ) : ℚ) - ((10 : ℤ) : ℚ)) / ((5 : ℤ) : ℚ) * (((2 : ℤ) : ℚ) + ((1 : ℤ) : ℚ)))⌉ = 10 := by
    apply ceilEval <;> norm_num
  have hcl2 : ⌈((20 : ℤ) : ℚ) - (((20 : ℤ) : ℚ) - ((0 : ℤ) : ℚ)) * (0.15 : ℚ)⌉ = 17 := by
    apply ceilEval <;> norm_num
  norm_num at hcl hcl2 ⊢

/-- C5: document-type classification.  A driver-license keyword such
as `운전` forces `운전면허증` regardless of the candidate fields;
keywords are checked driver > resident > passport, first match
winning; with no keyword hit the type is inferred from candidates in
priority driver-license number > passport number > RRN, an RRN alone
giving the weaker `주민등록증(추정)` and never plain `주민등록증`;
with neither keywords nor candidates the result is `Unknown`. -/
theorem C5_classification (text : String) (fields : List ParsedField) :
    (strContains text "운전" = true → (determineIdType text fields).1 = "운전면허증")
  ∧ (hasDriverKw text = true → (determineIdType text fields).1 = "운전면허증")
  ∧ (hasDriverKw text = false → hasResidentKw text = true →
      (determineIdType text fields).1 = "주민등록증")
  ∧ (hasDriverKw text = false → hasResidentKw text = false → hasPassportKw text = true →
      (determineIdType text fields).1 = "여권")
  ∧ (hasDriverKw text = false → hasResidentKw text = false → hasPassportKw text = false →
      hasFieldLabel fields "운전면허번호" = true →
      (determineIdType text fields).1 = "운전면허증")
  ∧ (hasDriverKw text = false → hasResidentKw text = false → hasPassportKw text = false →
      hasFieldLabel fields "운전면허번호" = false → hasFieldLabel fields "여권번호" = true →
      (determineIdType text fields).1 = "여권")
  ∧ (hasDriverKw text = false → hasResidentKw text = false → hasPassportKw text = false →
      hasFieldLabel fields "운전면허번호" = false → hasFieldLabel fields "여권번호" = false →
      hasFieldLabel fields "주민등록번호" = true →
      (determineIdType text fields).1 = "주민등록증(추정)")
  ∧ (hasDriverKw text = false → hasResidentKw text = false → hasPassportKw text = false →
      hasFieldLabel fields "운전면허번호" = false → hasFieldLabel fields "여권번호" = false →
      hasFieldLabel fields "주민등록번호" = false →
      (determineIdType text fields).1 = "Unknown") := by
  refine ⟨fun h1 => ?_, fun h1 => ?_, fun h1 h2 => ?_, fun h1 h2 h3 => ?_,
    fun h1 h2 h3 h4 => ?_, fun h1 h2 h3 h4 h5 => ?_, fun h1 h2 h3 h4 h5 h6 => ?_,
    fun h1 h2 h3 h4 h5 h6 => ?_⟩
  · have hd : hasDriverKw text = true := by simp [hasDriverKw, h1]
    simp [determineIdType, hd]
  all_goals first
    | rfl
    | simp_all [determineIdType]

/-- Witness for C5 at concrete inputs. -/
theorem C5_classification_witness :
    (determineIdType "운전면허증 서울" []).1 = "운전면허증" ∧
    (determineIdType "no keywords" [⟨"rrn-0", "주민등록번호", "x", [], ⟨0, 0, 0, 0⟩⟩]).1 =
      "주민등록증(추정)" := by
  constructor
  · exact (C5_classification "운전면허증 서울" []).1 (by decide)
  · exact (C5_classification "no keywords" _).2.2.2.2.2.2.1
      (by decide) (by decide) (by decide) (by decide) (by decide) (by decide)

/-- C6: a promoted candidate region's id is selected by default iff
its field label is in the fixed sensitive set
{주민등록번호, 운전면허번호, 여권번호}; the RRN sub-fields
생년월일 / 성별 / 주민번호 뒷자리 are never selected by default. -/
theorem C6_default_selection (fields : List ParsedField) (f : ParsedField)
    (hmem : f ∈ fields) (hnd : (fields.map (fun g => g.id)).Nodup) :
    (f.id ∈ defaultSelectedIds (toMaskingRegions fields) ↔ f.label ∈ sensitiveTypes)
  ∧ (f.label = "생년월일" ∨ f.label = "성별" ∨ f.label = "주민번호 뒷자리" →
      f.id ∉ defaultSelectedIds (toMaskingRegions fields)) := by
  have hiff : f.id ∈ defaultSelectedIds (toMaskingRegions fields) ↔ f.label ∈ sensitiveTypes := by
    constructor
    · intro hin
      simp only [defaultSelectedIds, toMaskingRegions, List.mem_map, List.mem_filter] at hin
      obtain ⟨r, ⟨hr, hsens⟩, hid⟩ := hin
      obtain ⟨g, hg, rfl⟩ := hr
      have hgf : g = f := List.inj_on_of_nodup_map hnd hg hmem hid
      subst hgf
      simpa [List.elem_iff] using hsens
    · intro hlab
      simp only [defaultSelectedIds, toMaskingRegions, List.mem_map, List.mem_filter]
      refine ⟨⟨f.id, f.label, f.bbox, f.value⟩, ⟨⟨f, hmem, rfl⟩, ?_⟩, rfl⟩
      simpa [List.elem_iff] using hlab
  refine ⟨hiff, fun hsub hin => ?_⟩
  have hmm := hiff.mp hin
  rcases hsub with h | h | h <;> rw [h] at hmm <;> simp [sensitiveTypes] at hmm

/-- Witness for C6: an RRN parent field is selected by default, its
birth-date sub-field is not. -/
theorem C6_default_selection_witness :
    (("rrn-0" : String) ∈ defaultSelectedIds (toMaskingRegions
        [⟨"rrn-0", "주민등록번호", "x", [], ⟨0, 0, 0, 0⟩⟩,
         ⟨"rrn-birth-0", "생년월일", "y", [], ⟨0, 0, 0, 0⟩⟩]) ↔
      ("주민등록번호" : String) ∈ sensitiveTypes) ∧
    ("rrn-birth-0" : String) ∉ defaultSelectedIds (toMaskingRegions
        [⟨"rrn-0", "주민등록번호", "x", [], ⟨0, 0, 0, 0⟩⟩,
         ⟨"rrn-birth-0", "생년월일", "y", [], ⟨0, 0, 0, 0⟩⟩]) := by
  constructor
  · exact (C6_default_selection
      [⟨"rrn-0", "주민등록번호", "x", [], ⟨0, 0, 0, 0⟩⟩,
       ⟨"rrn-birth-0", "생년월일", "y", [], ⟨0, 0, 0, 0⟩⟩]
      ⟨"rrn-0", "주민등록번호", "x", [], ⟨0, 0, 0, 0⟩⟩
      (by decide) (by decide)).1
  · exact (C6_default_selection
      [⟨"rrn-0", "주민등록번호", "x", [], ⟨0, 0, 0, 0⟩⟩,
       ⟨"rrn-birth-0", "생년월일", "y", [], ⟨0, 0, 0, 0⟩⟩]
      ⟨"rrn-birth-0", "생년월일", "y", [], ⟨0, 0, 0, 0⟩⟩
      (by decide) (by decide)).2 (Or.inl rfl)

/-- Unfolding equation for the OtherText pass. -/
theorem otherRegionsFrom_cons (sens : List MaskingRegion) (l : OCRLine) (ls : List OCRLine)
    (idx : ℕ) :
    otherRegionsFrom sens (l :: ls) idx =
      (if (!(sens.any (fun sr => overlapCheck l.bbox sr.bbox)) &&
          decide (0 < (jsTrim l.text.data).length)) then
        [⟨"raw-line-" ++ Nat.repr idx, "Text", l.bbox, l.text⟩]
      else []) ++ otherRegionsFrom sens ls (idx + 1) := rfl

/-- Integer reformulation of the overlap test (used to evaluate the
division-based test on concrete inputs). -/
theorem overlapCheck_eq_int (lb sb : Bbox) :
    overlapCheck lb sb =
      (decide (max lb.x0 sb.x0 < min lb.x1 sb.x1) &&
       decide (max lb.y0 sb.y0 < min lb.y1 sb.y1) &&
       decide (3 * ((lb.x1 - lb.x0) * (lb.y1 - lb.y0)) <
         10 * ((min lb.x1 sb.x1 - max lb.x0 sb.x0) * (min lb.y1 sb.y1 - max lb.y0 sb.y0)))) := by
  unfold overlapCheck
  by_cases hx : max lb.x0 sb.x0 < min lb.x1 sb.x1
  · by_cases hy : max lb.y0 sb.y0 < min lb.y1 sb.y1
    · rw [if_pos ⟨hx, hy⟩]
      have hlx : lb.x0 < lb.x1 :=
        lt_of_le_of_lt (le_max_left _ _) (lt_of_lt_of_le hx (min_le_left _ _))
      have hly : lb.y0 < lb.y1 :=
        lt_of_le_of_lt (le_max_left _ _) (lt_of_lt_of_le hy (min_le_left _ _))
      have harea : (0 : ℚ) < ((lb.x1 - lb.x0 : ℤ) : ℚ) * ((lb.y1 - lb.y0 : ℤ) : ℚ) := by
        apply mul_pos <;> exact_mod_cast Int.sub_pos.mpr (by assumption)
      simp only [hx, hy, decide_True, Bool.true_and]
      rw [decide_eq_decide]
      rw [lt_div_iff₀ harea]
      rw [show ((3 * ((lb.x1 - lb.x0) * (lb.y1 - lb.y0)) <
            10 * ((min lb.x1 sb.x1 - max lb.x0 sb.x0) * (min lb.y1 sb.y1 - max lb.y0 sb.y0))) ↔
          ((3 * ((lb.x1 - lb.x0) * (lb.y1 - lb.y0)) : ℤ) : ℚ) <
            ((10 * ((min lb.x1 sb.x1 - max lb.x0 sb.x0) * (min lb.y1 sb.y1 - max lb.y0 sb.y0)) : ℤ) : ℚ))
        from Int.cast_lt.symm]
      push_cast
      constructor <;> intro h <;> nlinarith [h]
    · rw [if_neg (fun hcon => hy hcon.2)]
      simp [hy]
  · rw [if_neg (fun hcon => hx hcon.1)]
    simp [hx]

/-- The code's boolean overlap test decides exactly the claim's ratio
condition. -/
theorem overlapCheck_iff (lb sb : Bbox) :
    overlapCheck lb sb = true ↔ overlapRatioOver lb sb := by
  unfold overlapCheck overlapRatioOver interBox
  by_cases hx : max lb.x0 sb.x0 < min lb.x1 sb.x1
  · by_cases hy : max lb.y0 sb.y0 < min lb.y1 sb.y1
    · rw [if_pos ⟨hx, hy⟩]
      simp only [hx, hy, true_and, decide_eq_true_eq]
      rw [show (0.3 : ℚ) = 3 / 10 by norm_num]
      push_cast
      exact Iff.rfl
    · rw [if_neg (fun hcon => hy hcon.2)]
      simp [hy]
  · rw [if_neg (fun hcon => hx hcon.1)]
    simp [hx]

/-- The per-line emission condition in claim form. -/
theorem otherKeep_iff (sens : List MaskingRegion) (l : OCRLine) :
    (!(sens.any (fun sr => overlapCheck l.bbox sr.bbox)) &&
      decide (0 < (jsTrim l.text.data).length)) =
    decide ((¬ ∃ sr ∈ sens, overlapRatioOver l.bbox sr.bbox) ∧ jsTrim l.text.data ≠ []) := by
  by_cases hex : ∃ sr ∈ sens, overlapRatioOver l.bbox sr.bbox
  · have hany : sens.any (fun sr => overlapCheck l.bbox sr.bbox) = true := by
      rw [List.any_eq_true]
      obtain ⟨sr, hm, ho⟩ := hex
      exact ⟨sr, hm, (overlapCheck_iff _ _).mpr ho⟩
    simp [hany, hex]
  · have hany : sens.any (fun sr => overlapCheck l.bbox sr.bbox) = false := by
      rw [List.any_eq_false]
      intro sr hm
      intro hc
      exact hex ⟨sr, hm, (overlapCheck_iff _ _).mp hc⟩
    by_cases htr : jsTrim l.text.data = []
    · simp [hany, hex, htr]
    · simp [hany, hex, htr, List.length_pos]

/-- C7 counterexample: with a line of area 100 and a candidate
covering exactly 30 of it the overlap ratio is exactly 0.3, yet the
code (which suppresses only on ratio STRICTLY above 0.3) still emits
the OtherText region; and a whitespace-only unclaimed line emits no
region at all, though the claim promises one per unclaimed line. -/
theorem C7_threshold_counterexample :
    ((((interBox ⟨0, 0, 10, 10⟩ ⟨0, 0, 10, 3⟩).x1 - (interBox ⟨0, 0, 10, 10⟩ ⟨0, 0, 10, 3⟩).x0) *
        ((interBox ⟨0, 0, 10, 10⟩ ⟨0, 0, 10, 3⟩).y1 - (interBox ⟨0, 0, 10, 10⟩ ⟨0, 0, 10, 3⟩).y0) : ℤ) : ℚ) /
      ((((10 : ℤ) - 0) * ((10 : ℤ) - 0) : ℤ) : ℚ) = 3 / 10 ∧
    otherRegionsFrom [⟨"rrn-0", "주민등록번호", ⟨0, 0, 10, 3⟩, "v"⟩]
        [⟨"X", ⟨0, 0, 10, 10⟩, []⟩] 0 =
      [⟨"raw-line-0", "Text", ⟨0, 0, 10, 10⟩, "X"⟩] ∧
    otherRegionsFrom [] [⟨" ", ⟨0, 0, 10, 10⟩, []⟩] 0 = [] := by
  refine ⟨?_, ?_, ?_⟩
  · norm_num [interBox]
  · simp only [otherRegionsFrom, overlapCheck_eq_int]
    decide
  · decide

/-- C7 amended: the OtherText pass emits exactly one region per line
whose trimmed text is nonempty and which no candidate region overlaps
with ratio strictly above 0.3; each region carries the full line text
with type `Text`; the 5-line / 2-claimed document yields exactly the 3
regions for the unclaimed lines; regions whose id no candidate field
shares are never selected by default. -/
theorem C7_other_text_amended :
    (∀ (sens : List MaskingRegion) (lines : List OCRLine) (k : ℕ),
      otherRegionsFrom sens lines k =
        ((List.enumFrom k lines).filter (fun p =>
            decide ((¬ ∃ sr ∈ sens, overlapRatioOver p.2.bbox sr.bbox) ∧
              jsTrim p.2.text.data ≠ []))).map
          (fun p => ⟨"raw-line-" ++ Nat.repr p.1, "Text", p.2.bbox, p.2.text⟩))
  ∧ ((otherRegionsFrom fiveCands fiveLines 0).map (fun r => (r.id, r.type, r.text)) =
      [("raw-line-0", "Text", "a"), ("raw-line-2", "Text", "c"), ("raw-line-4", "Text", "e")])
  ∧ (∀ (fields : List ParsedField) (lines : List OCRLine) (r : MaskingRegion),
      r ∈ otherRegionsFrom (toMaskingRegions fields) lines 0 →
      (∀ f ∈ fields, f.id ≠ r.id) →
      r.id ∉ defaultSelectedIds (toMaskingRegions fields)) := by
  refine ⟨?_, ?_, ?_⟩
  · intro sens lines
    induction lines with
    | nil => intro k; rfl
    | cons l ls ih =>
      intro k
      rw [otherRegionsFrom_cons, otherKeep_iff sens l, ih (k + 1)]
      rw [show List.enumFrom k (l :: ls) = (k, l) :: List.enumFrom (k + 1) ls from rfl]
      simp only [List.filter_cons]
      by_cases hc : (¬ ∃ sr ∈ sens, overlapRatioOver l.bbox sr.bbox) ∧ jsTrim l.text.data ≠ []
      · rw [if_pos (decide_eq_true hc), if_pos (decide_eq_true hc)]
        simp
      · rw [if_neg (fun h => hc (of_decide_eq_true h)),
          if_neg (fun h => hc (of_decide_eq_true h))]
        simp
  · simp only [fiveCands, fiveLines, otherRegionsFrom, overlapCheck_eq_int]
    decide
  · intro fields lines r hr hfresh hmem
    simp only [defaultSelectedIds, toMaskingRegions, List.mem_map, List.mem_filter] at hmem
    obtain ⟨mr, ⟨hmr, _⟩, hid⟩ := hmem
    obtain ⟨g, hg, rfl⟩ := hmr
    exact hfresh g hg hid

/-- Witness for C7 amended at concrete inputs. -/
theorem C7_other_text_amended_witness :
    otherRegionsFrom [] [⟨"X", ⟨0, 0, 10, 10⟩, []⟩] 0 =
      ((List.enumFrom 0 [(⟨"X", ⟨0, 0, 10, 10⟩, []⟩ : OCRLine)]).filter (fun p =>
          decide ((¬ ∃ sr ∈ ([] : List MaskingRegion), overlapRatioOver p.2.bbox sr.bbox) ∧
            jsTrim p.2.text.data ≠ []))).map
        (fun p => ⟨"raw-line-" ++ Nat.repr p.1, "Text", p.2.bbox, p.2.text⟩) ∧
    ("raw-line-0" : String) ∉ defaultSelectedIds (toMaskingRegions
      [⟨"rrn-9", "주민등록번호", "v", [], ⟨20, 0, 30, 10⟩⟩]) := by
  constructor
  · exact C7_other_text_amended.1 [] [⟨"X", ⟨0, 0, 10, 10⟩, []⟩] 0
  · exact C7_other_text_amended.2.2
      [⟨"rrn-9", "주민등록번호", "v", [], ⟨20, 0, 30, 10⟩⟩]
      [⟨"X", ⟨0, 0, 10, 10⟩, []⟩]
      ⟨"raw-line-0", "Text", ⟨0, 0, 10, 10⟩, "X"⟩
      (by decide) (by decide)

/-- Integer reformulation of the absorption gap test. -/
theorem gapExceeds_eq_int (gap h : ℤ) : gapExceeds gap h = decide (5 * h < 2 * gap) := by
  unfold gapExceeds
  rw [decide_eq_decide]
  rw [show ((5 * h < 2 * gap) ↔ ((5 * h : ℤ) : ℚ) < ((2 * gap : ℤ) : ℚ)) from Int.cast_lt.symm]
  push_cast
  rw [show (2.5 : ℚ) = 5 / 2 by norm_num]
  constructor <;> intro hlt <;> linarith

/-- Equation: absorption with no remaining iterations. -/
theorem absorbFrom_zero (lines : List OCRLine) (i : ℕ) (anchorH : ℤ) (j : ℕ) :
    absorbFrom lines i anchorH j 0 = [] := by
  cases j <;> rfl

/-- Equation: claim-side absorption with no remaining fuel. -/
theorem specAbsorb_zero (anchorH : ℤ) (prevL : OCRLine) (rest : List OCRLine) :
    specAbsorb anchorH prevL rest 0 = [] := by
  cases rest <;> rfl

/-- Equation: claim-side absorption with no lines left. -/
theorem specAbsorb_nil (anchorH : ℤ) (prevL : OCRLine) (fuel : ℕ) :
    specAbsorb anchorH prevL [] (fuel + 1) = [] := rfl

/-- Equation: one claim-side absorption step. -/
theorem specAbsorb_cons (anchorH : ℤ) (prevL next : OCRLine) (rs : List OCRLine) (fuel : ℕ) :
    specAbsorb anchorH prevL (next :: rs) (fuel + 1) =
      (if gapExceeds (next.bbox.y0 - prevL.bbox.y1) anchorH then []
       else if dateTestA next.text then []
       else if dlTest next.text then []
       else if rrnTest next.text then []
       else next :: specAbsorb anchorH next rs fuel) := rfl

/-- The absorption loop, re-indexed: with `lines[i+j-1] = prevL` the
loop body equals the claim-side recursion over the remaining lines. -/
theorem absorbFrom_eq_spec (lines : List OCRLine) (i : ℕ) (anchorH : ℤ) :
    ∀ (rem j : ℕ) (prevL : OCRLine), 0 < j → lines.get? (i + j - 1) = some prevL →
      absorbFrom lines i anchorH j rem = specAbsorb anchorH prevL (lines.drop (i + j)) rem := by
  intro rem
  induction rem with
  | zero => intro j prevL _ _; rw [absorbFrom_zero, specAbsorb_zero]
  | succ rem ih =>
    intro j prevL hj hprev
    rcases j with _ | n
    · omega
    rcases hnext : lines.get? (i + (n + 1)) with _ | next
    · have hlen : lines.length ≤ i + (n + 1) := List.get?_eq_none.mp hnext
      simp only [absorbFrom, hnext]
      rw [List.drop_eq_nil_of_le hlen, specAbsorb_nil]
    · have hlt : i + (n + 1) < lines.length := by
        by_contra hge
        rw [List.get?_eq_none.mpr (by omega)] at hnext
        exact Option.noConfusion hnext
      have hdrop : lines.drop (i + (n + 1)) = lines[i + (n + 1)] :: lines.drop (i + (n + 1) + 1) :=
        List.drop_eq_getElem_cons hlt
      have hnexteq : lines[i + (n + 1)] = next := by
        have hh := List.getElem?_eq_getElem hlt
        rw [← List.get?_eq_getElem?, hnext] at hh
        exact (Option.some.injEq _ _).mp hh.symm
      simp only [absorbFrom, hnext, hprev]
      rw [hdrop, hnexteq, specAbsorb_cons]
      have hrec : absorbFrom lines i anchorH (n + 1 + 1) rem =
          specAbsorb anchorH next (lines.drop (i + (n + 1) + 1)) rem := by
        apply ih (n + 1 + 1) next (by omega)
        rw [show i + (n + 1 + 1) - 1 = i + (n + 1) by omega]
        exact hnext
      rw [hrec]

/-- C9 counterexample: with anchor height 10, an absorbed line of
height 100, and a following line at gap 30, the code stops (30 exceeds
2.5×10, the ANCHOR height) although every condition of the claim as
stated holds for that line — the gap does not exceed 2.5× the
PREVIOUS ABSORBED line's height (250) and the line matches none of the
date / driver-license / RRN patterns. -/
theorem C9_anchor_height_counterexample :
    absorbFrom [⟨"서울 A", ⟨0, 0, 100, 10⟩, []⟩, ⟨"B", ⟨0, 12, 100, 112⟩, []⟩,
        ⟨"C", ⟨0, 142, 100, 152⟩, []⟩] 0 (10 - 0) 1 3 =
      [⟨"B", ⟨0, 12, 100, 112⟩, []⟩] ∧
    gapExceeds ((142 : ℤ) - 112) ((112 : ℤ) - 12) = false ∧
    dateTestA "C" = false ∧ dlTest "C" = false ∧ rrnTest "C" = false := by
  refine ⟨?_, ?_, by decide, by decide, by decide⟩
  · rw [absorbFrom_eq_spec
      [⟨"서울 A", ⟨0, 0, 100, 10⟩, []⟩, ⟨"B", ⟨0, 12, 100, 112⟩, []⟩,
        ⟨"C", ⟨0, 142, 100, 152⟩, []⟩] 0 (10 - 0) 3 1
      ⟨"서울 A", ⟨0, 0, 100, 10⟩, []⟩ (by decide) rfl]
    simp only [specAbsorb, gapExceeds_eq_int]
    decide
  · rw [gapExceeds_eq_int]
    decide

/-- C9 amended: after anchoring, the absorption loop absorbs at most 3
following lines and stops at the first line whose vertical gap to the
previous absorbed line exceeds 2.5 times the ANCHOR line's height, or
whose text matches the RRN grammar, the driver-license grammar, or the
standalone date pattern. -/
theorem C9_address_absorption :
    (∀ (lines : List OCRLine) (i : ℕ) (anchorH : ℤ) (anchor : OCRLine),
      lines.get? i = some anchor →
      absorbFrom lines i anchorH 1 3 = specAbsorb anchorH anchor (lines.drop (i + 1)) 3)
  ∧ (∀ (anchorH : ℤ) (prevL : OCRLine) (rest : List OCRLine) (fuel : ℕ),
      (specAbsorb anchorH prevL rest fuel).length ≤ fuel) := by
  constructor
  · intro lines i anchorH anchor hanchor
    apply absorbFrom_eq_spec lines i anchorH 3 1 anchor (by omega)
    simpa using hanchor
  · intro anchorH prevL rest fuel
    induction fuel generalizing prevL rest with
    | zero => rw [specAbsorb_zero]; simp
    | succ fuel ih =>
      cases rest with
      | nil => rw [specAbsorb_nil]; simp
      | cons next rs =>
        rw [specAbsorb_cons]
        split
        · simp
        · split
          · simp
          · split
            · simp
            · split
              · simp
              · simpa using ih next rs

/-- Witness for C9 amended: the loop equality at a concrete one-line
document (both sides empty: no following lines to absorb). -/
theorem C9_address_absorption_witness :
    absorbFrom [⟨"서울", ⟨0, 0, 10, 10⟩, []⟩] 0 10 1 3 =
      specAbsorb 10 ⟨"서울", ⟨0, 0, 10, 10⟩, []⟩
        (List.drop 1 [⟨"서울", ⟨0, 0, 10, 10⟩, []⟩]) 3 ∧
    (specAbsorb 10 (⟨"서울", ⟨0, 0, 10, 10⟩, []⟩ : OCRLine) [] 3).length ≤ 3 := by
  constructor
  · exact C9_address_absorption.1 [⟨"서울", ⟨0, 0, 10, 10⟩, []⟩] 0 10 _ rfl
  · exact C9_address_absorption.2 10 _ [] 3

/-! ### Facts about the RRN matcher -/

/-- Whitespace characters are not digits. -/
theorem jsDigit_of_ws (c : Char) (h : jsIsWs c = true) : jsDigit c = false := by
  simp only [jsIsWs, Bool.or_eq_true, Bool.and_eq_true, decide_eq_true_eq] at h
  simp only [jsDigit, Bool.and_eq_false_iff, decide_eq_false_iff_not]
  omega

/-- Separator-class characters are not digits. -/
theorem rrnSepChar_not_digit (c : Char) (h : rrnSepChar c = true) : jsDigit c = false := by
  simp only [rrnSepChar, Bool.and_eq_true, Bool.not_eq_true'] at h
  exact h.1

/-- A greedy run never exceeds the list length. -/
theorem maxRun_le_length (p : Char → Bool) (l : List Char) : maxRun p l ≤ l.length := by
  induction l with
  | nil => simp [maxRun]
  | cons c cs ih =>
    simp only [maxRun, List.length_cons]
    split <;> omega

/-- The prefix of length `maxRun p l` satisfies `p` throughout. -/
theorem take_maxRun_all (p : Char → Bool) (l : List Char) :
    (l.take (maxRun p l)).all p = true := by
  induction l with
  | nil => rfl
  | cons c cs ih =>
    simp only [maxRun]
    split
    · simp [List.all_cons, *]
    · rfl

/-- A shorter prefix of an all-`p` prefix is all-`p`. -/
theorem all_take_of_le (p : Char → Bool) (l : List Char) (j m : ℕ) (hjm : j ≤ m)
    (hall : (l.take m).all p = true) : (l.take j).all p = true := by
  have hjt : l.take j = (l.take m).take j := by
    rw [List.take_take, min_eq_left hjm]
  rw [hjt, List.all_eq_true] at *
  intro x hx
  exact hall x (List.take_subset _ _ hx)

/-- Soundness of the separator backtracking search. -/
theorem rrnSepSearch_sound (rest : List Char) :
    ∀ (k0 k t : ℕ), rrnSepSearch rest k0 = some (k, t) →
      k ≤ k0 ∧ t = maxRun rrnTailChar (rest.drop k) ∧ 7 ≤ t := by
  intro k0
  induction k0 with
  | zero =>
    intro k t h
    simp only [rrnSepSearch] at h
    split at h
    · obtain ⟨rfl, rfl⟩ := Prod.mk.injEq .. ▸ Option.some.injEq .. ▸ h
      refine ⟨le_refl _, by simp, by assumption⟩
    · exact absurd h (by simp)
  | succ k1 ih =>
    intro k t h
    simp only [rrnSepSearch] at h
    split at h
    · obtain ⟨rfl, rfl⟩ := Prod.mk.injEq .. ▸ Option.some.injEq .. ▸ h
      refine ⟨le_refl _, rfl, by assumption⟩
    · obtain ⟨h1, h2, h3⟩ := ih k t h
      exact ⟨by omega, h2, h3⟩

/-- Soundness of the anchored RRN attempt. -/
theorem rrnAt_sound (u : List Char) (k t : ℕ) (h : rrnAt u = some (k, t)) :
    6 ≤ u.length ∧ (u.take 6).all jsDigit = true ∧
    k ≤ maxRun rrnSepChar (u.drop 6) ∧
    t = maxRun rrnTailChar ((u.drop 6).drop k) ∧ 7 ≤ t := by
  unfold rrnAt at h
  split at h
  · rename_i hc
    obtain ⟨h1, h2, h3⟩ := rrnSepSearch_sound (u.drop 6) _ k t h
    exact ⟨hc.1, hc.2, h1, h2, h3⟩
  · exact absurd h (by simp)

/-- Soundness of the leftmost scan. -/
theorem rrnGo_sound (u : List Char) :
    ∀ (i0 i k t : ℕ), rrnGo u i0 = some (i, k, t) →
      i0 ≤ i ∧ rrnAt (u.drop (i - i0)) = some (k, t) := by
  induction u with
  | nil =>
    intro i0 i k t h
    simp only [rrnGo] at h
    rcases hat : rrnAt [] with _ | p
    · rw [hat] at h; exact absurd h (by simp)
    · rw [hat] at h
      obtain ⟨p1, p2⟩ := p
      obtain ⟨rfl, rfl, rfl⟩ : i0 = i ∧ p1 = k ∧ p2 = t := by
        simpa using h
      exact ⟨le_refl _, by simpa using hat⟩
  | cons c u1 ih =>
    intro i0 i k t h
    simp only [rrnGo] at h
    rcases hat : rrnAt (c :: u1) with _ | p
    · rw [hat] at h
      obtain ⟨h1, h2⟩ := ih (i0 + 1) i k t h
      refine ⟨by omega, ?_⟩
      have hdrop : (c :: u1).drop (i - i0) = u1.drop (i - (i0 + 1)) := by
        have hge : 1 ≤ i - i0 := by omega
        rw [show i - i0 = (i - (i0 + 1)) + 1 by omega]
        rfl
      rw [hdrop]
      exact h2
    · rw [hat] at h
      obtain ⟨p1, p2⟩ := p
      obtain ⟨rfl, rfl, rfl⟩ : i0 = i ∧ p1 = k ∧ p2 = t := by
        simpa using h
      exact ⟨le_refl _, by simpa using hat⟩

/-- Shape of a successful RRN match: six digits, a digit-free
separator run, and a tail run of the tail class, all within bounds. -/
theorem rrnFind_shape (s : List Char) (i k t : ℕ) (h : rrnFind s = some (i, k, t)) :
    (rrnMatch1 s i).length = 6 ∧ (rrnMatch1 s i).all jsDigit = true ∧
    ((s.drop (i + 6)).take k).all rrnSepChar = true ∧
    (rrnMatch2 s i k t).length = t ∧ (rrnMatch2 s i k t).all rrnTailChar = true ∧ 7 ≤ t ∧
    rrnMatch0 s i k t = rrnMatch1 s i ++ (s.drop (i + 6)).take k ++ rrnMatch2 s i k t := by
  obtain ⟨-, hat⟩ := rrnGo_sound s 0 i k t h
  rw [Nat.sub_zero] at hat
  obtain ⟨hlen, hdig, hk, ht, ht7⟩ := rrnAt_sound _ _ _ hat
  have hd6 : (s.drop i).drop 6 = s.drop (i + 6) := by
    rw [List.drop_drop, Nat.add_comm]
  have hd6k : ((s.drop i).drop 6).drop k = s.drop (i + 6 + k) := by
    rw [hd6, List.drop_drop, Nat.add_comm]
  have htail : t = maxRun rrnTailChar (s.drop (i + 6 + k)) := by
    rw [← hd6k]; exact ht
  refine ⟨?_, hdig, ?_, ?_, ?_, ht7, ?_⟩
  · simp only [rrnMatch1, List.length_take]
    omega
  · rw [← hd6]
    exact all_take_of_le _ _ _ _ hk (take_maxRun_all _ _)
  · simp only [rrnMatch2, List.length_take]
    have := maxRun_le_length rrnTailChar (s.drop (i + 6 + k))
    omega
  · simp only [rrnMatch2]
    rw [htail]
    exact take_maxRun_all _ _
  · simp only [rrnMatch0, rrnMatch1, rrnMatch2]
    rw [show 6 + k + t = 6 + (k + t) by omega, List.take_add, List.take_add, hd6]
    rw [show List.drop k (List.drop (i + 6) s) = List.drop (i + 6 + k) s from by
      rw [List.drop_drop]]
    rw [List.append_assoc]

/-! ### Facts about digit extraction -/

/-- `replace(/\D/g,'')` distributes over append. -/
theorem digitsOf_append (a b : List Char) : digitsOf (a ++ b) = digitsOf a ++ digitsOf b :=
  List.filter_append a b

/-- An all-digit list is fixed by digit extraction. -/
theorem digitsOf_all_digit (l : List Char) (h : l.all jsDigit = true) : digitsOf l = l := by
  rw [List.all_eq_true] at h
  exact List.filter_eq_self.mpr h

/-- A separator run contributes no digits. -/
theorem digitsOf_sep_nil (l : List Char) (h : l.all rrnSepChar = true) : digitsOf l = [] := by
  rw [List.all_eq_true] at h
  rw [digitsOf, List.filter_eq_nil_iff]
  intro c hc
  rw [rrnSepChar_not_digit c (h c hc)]
  simp

/-- Dropping leading whitespace keeps the digits. -/
theorem digitsOf_dropWhile_ws (l : List Char) :
    digitsOf (l.dropWhile jsIsWs) = digitsOf l := by
  conv_rhs => rw [← List.takeWhile_append_dropWhile (p := jsIsWs) (l := l)]
  rw [digitsOf_append]
  have hnil : digitsOf (l.takeWhile jsIsWs) = [] := by
    rw [digitsOf, List.filter_eq_nil_iff]
    intro c hc
    rw [jsDigit_of_ws c (List.mem_takeWhile_imp hc)]
    simp
  rw [hnil, List.nil_append]

/-- Digit extraction commutes with reversal. -/
theorem digitsOf_reverse (l : List Char) : digitsOf l.reverse = (digitsOf l).reverse := by
  induction l with
  | nil => rfl
  | cons c cs ih =>
    rw [List.reverse_cons, digitsOf_append, ih]
    by_cases hc : jsDigit c = true <;> simp [digitsOf, List.filter_cons, hc]

/-- Trimming keeps the digits. -/
theorem digitsOf_jsTrim (l : List Char) : digitsOf (jsTrim l) = digitsOf l := by
  unfold jsTrim
  rw [digitsOf_reverse, digitsOf_dropWhile_ws, digitsOf_reverse, List.reverse_reverse,
    digitsOf_dropWhile_ws]

/-- Digit extraction yields only digits. -/
theorem digitsOf_all (l : List Char) : (digitsOf l).all jsDigit = true := by
  rw [List.all_eq_true]
  intro c hc
  exact (List.mem_filter.mp hc).2

/-- Digit count of the whole match: 6 from the birth part, none from
the separator, plus the digits of the tail. -/
theorem rrn_digit_count (s : List Char) (i k t : ℕ) (h : rrnFind s = some (i, k, t)) :
    (digitsOf (rrnMatch0 s i k t)).length = 6 + (digitsOf (rrnMatch2 s i k t)).length := by
  obtain ⟨h1, h2, h3, h4, h5, h6, hsplit⟩ := rrnFind_shape s i k t h
  rw [hsplit, digitsOf_append, digitsOf_append]
  rw [digitsOf_all_digit _ h2, digitsOf_sep_nil _ h3]
  simp [h1]

/-- The RRN-labelled output of one line: the parent field alone when
the digit count over the whole match reaches 13, nothing otherwise. -/
theorem rrnLineOut_filter_rrn (line : OCRLine) (idx i k t : ℕ)
    (hfind : rrnFind line.text.data = some (i, k, t)) :
    (rrnLineOut line idx).1.filter (fun f => f.label == "주민등록번호") =
      (if 13 ≤ (digitsOf (rrnMatch0 line.text.data i k t)).length then
        [⟨"rrn-" ++ Nat.repr idx, "주민등록번호", String.mk (rrnMatch0 line.text.data i k t),
          ["line-" ++ Nat.repr idx], line.bbox⟩]
      else []) := by
  have hshape := rrnFind_shape line.text.data i k t hfind
  have hlen1 : (rrnMatch1 line.text.data i).length = 6 := hshape.1
  have hcnt := rrn_digit_count line.text.data i k t hfind
  by_cases hacc : 13 ≤ (digitsOf (rrnMatch0 line.text.data i k t)).length
  · have hcondT : 13 ≤ (rrnMatch1 line.text.data i).length +
        (digitsOf (jsTrim (rrnMatch2 line.text.data i k t))).length := by
      rw [digitsOf_jsTrim, hlen1]
      omega
    have hD7 : 7 ≤ (digitsOf (jsTrim (rrnMatch2 line.text.data i k t))).length := by
      rw [digitsOf_jsTrim]
      omega
    rw [if_pos hacc]
    simp only [rrnLineOut, hfind]
    rw [if_pos hcondT]
    by_cases h8 : (digitsOf (jsTrim (rrnMatch2 line.text.data i k t))).length = 8
    · rw [if_pos h8]
      have hvb : ¬ ((digitsOf (jsTrim (rrnMatch2 line.text.data i k t))).length - 1 < 7) := by
        omega
      simp [hvb]
    · rw [if_neg h8]
      have hvb : ¬ (digitsOf (jsTrim (rrnMatch2 line.text.data i k t))).length < 7 := by
        omega
      simp [hvb]
  · have hcondF : ¬ 13 ≤ (rrnMatch1 line.text.data i).length +
        (digitsOf (jsTrim (rrnMatch2 line.text.data i k t))).length := by
      rw [digitsOf_jsTrim, hlen1]
      omega
    rw [if_neg hacc]
    simp only [rrnLineOut, hfind]
    rw [if_neg hcondF]
    simp

/-- Driver-license section emits only 운전면허번호 fields. -/
theorem dlScanFrom_labels (ls : List OCRLine) :
    ∀ (idx : ℕ), ∀ f ∈ (dlScanFrom ls idx).1, f.label = "운전면허번호" := by
  induction ls with
  | nil => intro idx f hf; simp [dlScanFrom] at hf
  | cons l ls ih =>
    intro idx f hf
    simp only [dlScanFrom, List.mem_append] at hf
    rcases hf with hf | hf
    · rcases hdl : dlFind l.text.data with _ | ⟨i2, k1, k2⟩ <;>
        simp only [dlLineOut, hdl] at hf
      · exact absurd hf (List.not_mem_nil f)
      · split at hf <;> simp_all
    · exact ih (idx + 1) f hf

/-- Passport section emits only 여권번호 fields. -/
theorem passportScanFrom_labels (ws : List OCRWord) :
    ∀ (idx : ℕ), ∀ f ∈ (passportScanFrom ws idx).1, f.label = "여권번호" := by
  induction ws with
  | nil => intro idx f hf; simp [passportScanFrom] at hf
  | cons w ws ih =>
    intro idx f hf
    simp only [passportScanFrom, List.mem_append] at hf
    rcases hf with hf | hf
    · unfold passportWordOut at hf
      split at hf <;> simp_all
    · exact ih (idx + 1) f hf

/-- The anchored address body emits only 주소 fields. -/
theorem addressAtAnchor_labels (lines : List OCRLine) (fields : List ParsedField)
    (anchor : OCRLine) (i : ℕ) :
    ∀ f ∈ (addressAtAnchor lines fields anchor i).1, f.label = "주소" := by
  intro f hf
  simp only [addressAtAnchor] at hf
  split at hf <;> simp_all

/-- The address scan emits only 주소 fields. -/
theorem addressScanFrom_labels (lines : List OCRLine) (fields : List ParsedField)
    (rest : List OCRLine) :
    ∀ (i : ℕ), ∀ f ∈ (addressScanFrom lines fields rest i).1, f.label = "주소" := by
  induction rest with
  | nil => intro i f hf; simp [addressScanFrom] at hf
  | cons l ls ih =>
    intro i f hf
    simp only [addressScanFrom] at hf
    split at hf
    · split at hf
      · exact addressAtAnchor_labels lines fields l i f hf
      · simp only [List.mem_append] at hf
        rcases hf with hf | hf
        · exact addressAtAnchor_labels lines fields l i f hf
        · exact ih (i + 1) f hf
    · exact ih (i + 1) f hf

/-- Period section emits only 갱신기간 fields. -/
theorem periodScanFrom_labels (ls : List OCRLine) :
    ∀ (idx : ℕ), ∀ f ∈ (periodScanFrom ls idx).1, f.label = "갱신기간" := by
  induction ls with
  | nil => intro idx f hf; simp [periodScanFrom] at hf
  | cons l ls ih =>
    intro idx f hf
    simp only [periodScanFrom, List.mem_append] at hf
    rcases hf with hf | hf
    · unfold periodLineOut at hf
      split at hf
      · split at hf <;> simp_all
      · simp at hf
    · exact ih (idx + 1) f hf

/-- Issue-date line body emits only 발급일 / 발급기관 fields. -/
theorem issueLineOut_labels (fields : List ParsedField) (line : OCRLine) (i : ℕ)
    (out : List ParsedField × List String) (h : issueLineOut fields line i = some out) :
    ∀ f ∈ out.1, f.label = "발급일" ∨ f.label = "발급기관" := by
  intro f hf
  rcases hd : dateLooseFind line.text with _ | ⟨di, dl⟩ <;>
    simp only [issueLineOut, hd] at h
  · exact absurd h (by simp)
  · split at h
    · rcases ha : authFind line.text with _ | ⟨ai, al⟩
      · rw [ha] at h
        obtain rfl := (Option.some.injEq _ _).mp h.symm
        simp_all
      · rw [ha] at h
        obtain rfl := (Option.some.injEq _ _).mp h.symm
        simp_all
        rcases hf with hf | hf <;> simp_all
    · exact absurd h (by simp)

/-- Issue-date scan emits only 발급일 / 발급기관 fields. -/
theorem issueScanRev_labels (fields : List ParsedField) (lst : List (ℕ × OCRLine)) :
    ∀ f ∈ (issueScanRev fields lst).1, f.label = "발급일" ∨ f.label = "발급기관" := by
  induction lst with
  | nil => intro f hf; simp [issueScanRev] at hf
  | cons p rest ih =>
    intro f hf
    obtain ⟨pi, pl⟩ := p
    simp only [issueScanRev] at hf
    rcases hout : issueLineOut fields pl pi with _ | out
    all_goals rw [hout] at hf
    · exact ih f hf
    · exact issueLineOut_labels fields pl pi out hout f hf

/-- Identifier-code section emits only 식별번호 fields. -/
theorem idCodeScanFrom_labels (ws : List OCRWord) :
    ∀ (idx : ℕ), ∀ f ∈ idCodeScanFrom ws idx, f.label = "식별번호" := by
  induction ws with
  | nil => intro idx f hf; simp [idCodeScanFrom] at hf
  | cons w ws ih =>
    intro idx f hf
    simp only [idCodeScanFrom, List.mem_append] at hf
    rcases hf with hf | hf
    · unfold idCodeWordOut at hf
      split at hf <;> simp_all
    · exact ih (idx + 1) f hf

/-- Fields whose label differs from 주민등록번호 vanish under the
RRN filter. -/
theorem filter_rrn_nil (fs : List ParsedField) (h : ∀ f ∈ fs, f.label ≠ "주민등록번호") :
    fs.filter (fun f => f.label == "주민등록번호") = [] := by
  rw [List.filter_eq_nil_iff]
  intro f hf
  simp [h f hf]

/-- C2: a NationalIdNumber (주민등록번호) candidate is emitted for a
matching line iff the digit count across the whole match reaches 13; a
near-miss is recorded only in the diagnostics log and produces no
field; at the document level, 주민등록번호-labelled fields come only
from the per-line RRN scan; the 12-digit near-miss document yields no
fields at all and only the rejection log entry. -/
theorem C2_rrn_gate :
    (∀ (line : OCRLine) (idx i k t : ℕ), rrnFind line.text.data = some (i, k, t) →
      ((((rrnLineOut line idx).1.filter (fun f => f.label == "주민등록번호")) ≠ []) ↔
        13 ≤ (digitsOf (rrnMatch0 line.text.data i k t)).length))
  ∧ (∀ (line : OCRLine) (idx i k t : ℕ), rrnFind line.text.data = some (i, k, t) →
      ¬ 13 ≤ (digitsOf (rrnMatch0 line.text.data i k t)).length →
      rrnLineOut line idx =
        ([], ["Potential RRN match on line " ++ Nat.repr idx ++ " too short/invalid patterns"]))
  ∧ (∀ doc : OCRResult,
      (parseOCRResult doc).fields.filter (fun f => f.label == "주민등록번호") =
        (rrnScanFrom doc.lines 0).1.filter (fun f => f.label == "주민등록번호"))
  ∧ ((parseOCRResult ⟨"810627-123456", [], [⟨"810627-123456", ⟨0, 0, 130, 20⟩, []⟩]⟩).fields = [] ∧
      "Potential RRN match on line 0 too short/invalid patterns" ∈
        (parseOCRResult ⟨"810627-123456", [], [⟨"810627-123456", ⟨0, 0, 130, 20⟩, []⟩]⟩).logs) := by
  refine ⟨?_, ?_, ?_, by decide, by decide⟩
  · intro line idx i k t hfind
    rw [rrnLineOut_filter_rrn line idx i k t hfind]
    by_cases hacc : 13 ≤ (digitsOf (rrnMatch0 line.text.data i k t)).length
    · simp [hacc]
    · simp [hacc]
  · intro line idx i k t hfind hrej
    have hshape := rrnFind_shape line.text.data i k t hfind
    have hcnt := rrn_digit_count line.text.data i k t hfind
    have hcondF : ¬ 13 ≤ (rrnMatch1 line.text.data i).length +
        (digitsOf (jsTrim (rrnMatch2 line.text.data i k t))).length := by
      rw [digitsOf_jsTrim, hshape.1]
      omega
    simp only [rrnLineOut, hfind]
    rw [if_neg hcondF]
  · intro doc
    unfold parseOCRResult
    by_cases hdl : strContains (determineIdType doc.text ((rrnScanFrom doc.lines 0).1 ++ (dlScanFrom doc.lines 0).1 ++ (passportScanFrom doc.words 0).1)).1 "운전면허증" = true
    · rw [if_pos hdl]
      simp only [List.filter_append]
      rw [filter_rrn_nil ((dlScanFrom doc.lines 0).1)
          (fun f hf => by have hl := dlScanFrom_labels doc.lines 0 f hf; simp [hl]),
        filter_rrn_nil ((passportScanFrom doc.words 0).1)
          (fun f hf => by have hl := passportScanFrom_labels doc.words 0 f hf; simp [hl]),
        filter_rrn_nil (addressScanFrom doc.lines ((rrnScanFrom doc.lines 0).1 ++ (dlScanFrom doc.lines 0).1 ++ (passportScanFrom doc.words 0).1) doc.lines 0).1
          (fun f hf => by
            have hl := addressScanFrom_labels doc.lines ((rrnScanFrom doc.lines 0).1 ++ (dlScanFrom doc.lines 0).1 ++ (passportScanFrom doc.words 0).1) doc.lines 0 f hf
            simp [hl]),
        filter_rrn_nil ((periodScanFrom doc.lines 0).1)
          (fun f hf => by have hl := periodScanFrom_labels doc.lines 0 f hf; simp [hl]),
        filter_rrn_nil ((issueScanRev (((rrnScanFrom doc.lines 0).1 ++ (dlScanFrom doc.lines 0).1 ++ (passportScanFrom doc.words 0).1) ++ (addressScanFrom doc.lines ((rrnScanFrom doc.lines 0).1 ++ (dlScanFrom doc.lines 0).1 ++ (passportScanFrom doc.words 0).1) doc.lines 0).1 ++ (periodScanFrom doc.lines 0).1) doc.lines.enum.reverse).1)
          (fun f hf => by
            have hl := issueScanRev_labels (((rrnScanFrom doc.lines 0).1 ++ (dlScanFrom doc.lines 0).1 ++ (passportScanFrom doc.words 0).1) ++ (addressScanFrom doc.lines ((rrnScanFrom doc.lines 0).1 ++ (dlScanFrom doc.lines 0).1 ++ (passportScanFrom doc.words 0).1) doc.lines 0).1 ++ (periodScanFrom doc.lines 0).1) doc.lines.enum.reverse f hf
            rcases hl with hl | hl <;> simp [hl]),
        filter_rrn_nil (idCodeScanFrom doc.words 0)
          (fun f hf => by have hl := idCodeScanFrom_labels doc.words 0 f hf; simp [hl])]
      simp
    · rw [if_neg hdl]
      simp only [List.filter_append]
      rw [filter_rrn_nil ((dlScanFrom doc.lines 0).1)
          (fun f hf => by have hl := dlScanFrom_labels doc.lines 0 f hf; simp [hl]),
        filter_rrn_nil ((passportScanFrom doc.words 0).1)
          (fun f hf => by have hl := passportScanFrom_labels doc.words 0 f hf; simp [hl]),
        filter_rrn_nil (addressScanFrom doc.lines ((rrnScanFrom doc.lines 0).1 ++ (dlScanFrom doc.lines 0).1 ++ (passportScanFrom doc.words 0).1) doc.lines 0).1
          (fun f hf => by
            have hl := addressScanFrom_labels doc.lines ((rrnScanFrom doc.lines 0).1 ++ (dlScanFrom doc.lines 0).1 ++ (passportScanFrom doc.words 0).1) doc.lines 0 f hf
            simp [hl])]
      simp

/-- Witness for C2 at the concrete accepted line `810627-1234567`. -/
theorem C2_rrn_gate_witness :
    ((rrnLineOut ⟨"810627-1234567", ⟨0, 0, 140, 20⟩, []⟩ 0).1.filter
        (fun f => f.label == "주민등록번호")) ≠ [] ∧
    (parseOCRResult ⟨"x", [], []⟩).fields.filter (fun f => f.label == "주민등록번호") =
      (rrnScanFrom ([] : List OCRLine) 0).1.filter (fun f => f.label == "주민등록번호") := by
  constructor
  · exact (C2_rrn_gate.1 ⟨"810627-1234567", ⟨0, 0, 140, 20⟩, []⟩ 0 0 1 7 (by decide)).mpr
      (by decide)
  · exact C2_rrn_gate.2.2.1 ⟨"x", [], []⟩

/-- C10: whenever the RRN regex matches a line and the 13-digit gate
accepts, the line contributes exactly the parent RRN field followed by
the three sub-fields birth date, gender and back number, in that order,
with the documented labels and per-line id tags; the birth value is the
6-digit first capture group, the gender value is a single digit, and
the back-number value is a 6-digit string. -/
theorem C10_rrn_subfields (line : OCRLine) (idx i k t : ℕ)
    (hfind : rrnFind line.text.data = some (i, k, t))
    (hacc : 13 ≤ (digitsOf (rrnMatch0 line.text.data i k t)).length) :
    ∃ g bs,
      ((rrnLineOut line idx).1.map (fun f => f.label)) =
        ["주민등록번호", "생년월일", "성별", "주민번호 뒷자리"] ∧
      ((rrnLineOut line idx).1.map (fun f => f.value)) =
        [String.mk (rrnMatch0 line.text.data i k t), String.mk (rrnMatch1 line.text.data i),
          String.mk [g], String.mk bs] ∧
      ((rrnLineOut line idx).1.map (fun f => f.ids)) =
        [["line-" ++ Nat.repr idx], ["line-" ++ Nat.repr idx ++ "-birth"],
          ["line-" ++ Nat.repr idx ++ "-gender"], ["line-" ++ Nat.repr idx ++ "-back"]] ∧
      (rrnMatch1 line.text.data i).length = 6 ∧
      (rrnMatch1 line.text.data i).all jsDigit = true ∧
      jsDigit g = true ∧ bs.length = 6 ∧ bs.all jsDigit = true := by
  have hshape := rrnFind_shape line.text.data i k t hfind
  have hcnt := rrn_digit_count line.text.data i k t hfind
  have hcondT : 13 ≤ (rrnMatch1 line.text.data i).length +
      (digitsOf (jsTrim (rrnMatch2 line.text.data i k t))).length := by
    rw [digitsOf_jsTrim, hshape.1]
    omega
  have hD7 : 7 ≤ (digitsOf (jsTrim (rrnMatch2 line.text.data i k t))).length := by
    rw [digitsOf_jsTrim]
    omega
  have hbdall : (digitsOf (jsTrim (rrnMatch2 line.text.data i k t))).all jsDigit = true :=
    digitsOf_all _
  by_cases h8 : (digitsOf (jsTrim (rrnMatch2 line.text.data i k t))).length = 8
  · obtain ⟨g, gs, hg⟩ : ∃ g gs,
        (digitsOf (jsTrim (rrnMatch2 line.text.data i k t))).drop 1 = g :: gs := by
      rcases hvb : (digitsOf (jsTrim (rrnMatch2 line.text.data i k t))).drop 1 with _ | ⟨a, b⟩
      · have hl := congrArg List.length hvb
        simp [h8] at hl
      · exact ⟨a, b, rfl⟩
    have hgs6 : gs.length = 6 := by
      have hl := congrArg List.length hg
      simp [h8] at hl
      omega
    refine ⟨g, gs.take 6, ?_⟩
    have hvb : ¬ ((digitsOf (jsTrim (rrnMatch2 line.text.data i k t))).length - 1 < 7) := by
      omega
    have hdall : ∀ x ∈ g :: gs, jsDigit x = true := by
      intro x hx
      have hx2 : x ∈ (digitsOf (jsTrim (rrnMatch2 line.text.data i k t))).drop 1 := by
        rw [hg]
        exact hx
      exact List.all_eq_true.mp hbdall x (List.drop_subset _ _ hx2)
    have hgt : (digitsOf (jsTrim (rrnMatch2 line.text.data i k t))).tail = g :: gs := by
      rw [← List.drop_one]
      exact hg
    have hg2 : (digitsOf (jsTrim (rrnMatch2 line.text.data i k t))).drop 2 = gs := by
      simpa using congrArg (List.drop 1) hg
    simp only [rrnLineOut, hfind]
    rw [if_pos hcondT, if_pos h8]
    simp [hvb]
    refine ⟨⟨?_, ?_⟩, hshape.1, List.all_eq_true.mp hshape.2.1,
      hdall g (List.mem_cons_self g gs), by omega, ?_⟩
    · simp [hgt]
    · simp [hg2]
    · intro x hx
      exact hdall x (List.mem_cons_of_mem g (List.take_subset _ _ hx))
  · obtain ⟨g, gs, hg⟩ : ∃ g gs,
        digitsOf (jsTrim (rrnMatch2 line.text.data i k t)) = g :: gs := by
      rcases hvb : digitsOf (jsTrim (rrnMatch2 line.text.data i k t)) with _ | ⟨a, b⟩
      · rw [hvb] at hD7
        simp at hD7
      · exact ⟨a, b, rfl⟩
    have hgs6 : 6 ≤ gs.length := by
      have hl := congrArg List.length hg
      simp at hl
      omega
    refine ⟨g, gs.take 6, ?_⟩
    have hvb : ¬ ((digitsOf (jsTrim (rrnMatch2 line.text.data i k t))).length < 7) := by
      omega
    have hdall : ∀ x ∈ g :: gs, jsDigit x = true := by
      intro x hx
      have hx2 : x ∈ digitsOf (jsTrim (rrnMatch2 line.text.data i k t)) := by
        rw [hg]
        exact hx
      exact List.all_eq_true.mp hbdall x hx2
    simp only [rrnLineOut, hfind]
    rw [if_pos hcondT, if_neg h8]
    simp [hvb]
    refine ⟨⟨?_, ?_⟩, hshape.1, List.all_eq_true.mp hshape.2.1,
      hdall g (List.mem_cons_self g gs), hgs6, ?_⟩
    · simp [hg]
    · simp [hg]
    · intro x hx
      exact hdall x (List.mem_cons_of_mem g (List.take_subset _ _ hx))


/-- Witness for C10 at the concrete accepted line 810627-1234567. -/
theorem C10_rrn_subfields_witness :
    ∃ g bs,
      ((rrnLineOut ⟨"810627-1234567", ⟨0, 0, 140, 20⟩, []⟩ 0).1.map (fun f => f.label)) =
        ["주민등록번호", "생년월일", "성별", "주민번호 뒷자리"] ∧
      ((rrnLineOut ⟨"810627-1234567", ⟨0, 0, 140, 20⟩, []⟩ 0).1.map (fun f => f.value)) =
        [String.mk (rrnMatch0 "810627-1234567".data 0 1 7),
          String.mk (rrnMatch1 "810627-1234567".data 0), String.mk [g], String.mk bs] ∧
      ((rrnLineOut ⟨"810627-1234567", ⟨0, 0, 140, 20⟩, []⟩ 0).1.map (fun f => f.ids)) =
        [["line-" ++ Nat.repr 0], ["line-" ++ Nat.repr 0 ++ "-birth"],
          ["line-" ++ Nat.repr 0 ++ "-gender"], ["line-" ++ Nat.repr 0 ++ "-back"]] ∧
      (rrnMatch1 "810627-1234567".data 0).length = 6 ∧
      (rrnMatch1 "810627-1234567".data 0).all jsDigit = true ∧
      jsDigit g = true ∧ bs.length = 6 ∧ bs.all jsDigit = true :=
  C10_rrn_subfields ⟨"810627-1234567", ⟨0, 0, 140, 20⟩, []⟩ 0 0 1 7 (by decide) (by decide)

/-- C4: when the tail of an accepted RRN match carries exactly 8
digits, the first digit is treated as noise: the remaining 7 digits
supply the gender digit and the 6-digit back number, and a log entry
records the discarded character. -/
theorem C4_noise_correction (line : OCRLine) (idx i k t : ℕ)
    (hfind : rrnFind line.text.data = some (i, k, t))
    (h8 : (digitsOf (rrnMatch2 line.text.data i k t)).length = 8) :
    ∃ c rest,
      digitsOf (jsTrim (rrnMatch2 line.text.data i k t)) = c :: rest ∧ rest.length = 7 ∧
      ("Back part has 8 digits. Assuming 1st digit " ++ String.singleton (Char.ofNat 39) ++
        String.mk [c] ++ String.singleton (Char.ofNat 39) ++ " is noise") ∈
          (rrnLineOut line idx).2 ∧
      ((rrnLineOut line idx).1.map (fun f => f.value)) =
        [String.mk (rrnMatch0 line.text.data i k t), String.mk (rrnMatch1 line.text.data i),
          String.mk (rest.take 1), String.mk ((rest.drop 1).take 6)] := by
  have hshape := rrnFind_shape line.text.data i k t hfind
  have h8t : (digitsOf (jsTrim (rrnMatch2 line.text.data i k t))).length = 8 := by
    rw [digitsOf_jsTrim]
    exact h8
  have hcondT : 13 ≤ (rrnMatch1 line.text.data i).length +
      (digitsOf (jsTrim (rrnMatch2 line.text.data i k t))).length := by
    rw [h8t, hshape.1]
    omega
  obtain ⟨c, rest, hc⟩ : ∃ c rest,
      digitsOf (jsTrim (rrnMatch2 line.text.data i k t)) = c :: rest := by
    rcases hvb : digitsOf (jsTrim (rrnMatch2 line.text.data i k t)) with _ | ⟨a, b⟩
    · rw [hvb] at h8t
      simp at h8t
    · exact ⟨a, b, rfl⟩
  have hrest7 : rest.length = 7 := by
    have hl := congrArg List.length hc
    rw [h8t] at hl
    simp at hl
    omega
  have hvb : ¬ ((digitsOf (jsTrim (rrnMatch2 line.text.data i k t))).length - 1 < 7) := by
    omega
  have htake : (digitsOf (jsTrim (rrnMatch2 line.text.data i k t))).take 1 = [c] := by
    rw [hc]
    simp
  have htail : (digitsOf (jsTrim (rrnMatch2 line.text.data i k t))).tail = rest := by
    rw [hc]
    simp
  have hd2 : (digitsOf (jsTrim (rrnMatch2 line.text.data i k t))).drop 2 = rest.drop 1 := by
    rw [hc]
    simp
  refine ⟨c, rest, hc, hrest7, ?_, ?_⟩
  · simp only [rrnLineOut, hfind]
    rw [if_pos hcondT, if_pos h8t]
    simp [hvb, htake]
  · have hvb2 : ¬ (rest.length < 7) := by
      omega
    simp only [rrnLineOut, hfind]
    rw [if_pos hcondT, if_pos h8t]
    simp [hvb, hvb2, htail, hd2]


/-- Witness for C4 at the concrete line 810627-41234567 whose tail
carries 8 digits. -/
theorem C4_noise_correction_witness :
    ∃ c rest,
      digitsOf (jsTrim (rrnMatch2 "810627-41234567".data 0 1 8)) = c :: rest ∧
      rest.length = 7 ∧
      ("Back part has 8 digits. Assuming 1st digit " ++ String.singleton (Char.ofNat 39) ++
        String.mk [c] ++ String.singleton (Char.ofNat 39) ++ " is noise") ∈
          (rrnLineOut ⟨"810627-41234567", ⟨0, 0, 150, 20⟩, []⟩ 0).2 ∧
      ((rrnLineOut ⟨"810627-41234567", ⟨0, 0, 150, 20⟩, []⟩ 0).1.map (fun f => f.value)) =
        [String.mk (rrnMatch0 "810627-41234567".data 0 1 8),
          String.mk (rrnMatch1 "810627-41234567".data 0),
          String.mk (rest.take 1), String.mk ((rest.drop 1).take 6)] :=
  C4_noise_correction ⟨"810627-41234567", ⟨0, 0, 150, 20⟩, []⟩ 0 0 1 8 (by decide) (by decide)

/-- `interpolateBBoxD` written out for a nonzero total length. -/
theorem interpolateBBoxD_eq (b : Bbox) (L s l : ℤ) (hL : ¬ L = 0) :
    interpolateBBoxD b L s l =
      ⟨⌊(b.x0 : ℚ) + ((b.x1 : ℚ) - (b.x0 : ℚ)) / (L : ℚ) * (s : ℚ)⌋,
       ⌊(b.y0 : ℚ) + ((b.y1 : ℚ) - (b.y0 : ℚ)) * (0.15 : ℚ)⌋,
       ⌈(b.x0 : ℚ) + ((b.x1 : ℚ) - (b.x0 : ℚ)) / (L : ℚ) * ((s : ℚ) + (l : ℚ))⌉,
       ⌈(b.y1 : ℚ) - ((b.y1 : ℚ) - (b.y0 : ℚ)) * (0.15 : ℚ)⌉⟩ := by
  unfold interpolateBBoxD interpolateBBox
  rw [if_neg hL]
  rfl

set_option maxHeartbeats 3200000 in
/-- C3: a document whose single line reads exactly 810627-1234567
(with a line bbox at least 14 units wide and non-inverted vertically)
parses to one RRN candidate valued 810627-1234567 plus the birth,
gender and back-number sub-fields valued 810627, 1, 234567, whose
interpolated bounding boxes are horizontally ordered left to right and
fully contained in the line bbox. -/
theorem C3_line_810627 (x0 y0 x1 y1 : ℤ) (hw : 14 ≤ x1 - x0) (hh : y0 ≤ y1) :
    ∃ bb bg bk : Bbox,
      ((parseOCRResult (doc810627 ⟨x0, y0, x1, y1⟩)).fields.map
          (fun f => (f.label, f.value, f.bbox))) =
        [("주민등록번호", "810627-1234567", ⟨x0, y0, x1, y1⟩),
         ("생년월일", "810627", bb), ("성별", "1", bg), ("주민번호 뒷자리", "234567", bk)] ∧
      x0 ≤ bb.x0 ∧ bb.x0 ≤ bb.x1 ∧ bb.x1 ≤ bg.x0 ∧ bg.x0 ≤ bg.x1 ∧ bg.x1 ≤ bk.x0 ∧
      bk.x0 ≤ bk.x1 ∧ bk.x1 ≤ x1 ∧
      y0 ≤ bb.y0 ∧ bb.y1 ≤ y1 ∧ y0 ≤ bg.y0 ∧ bg.y1 ≤ y1 ∧ y0 ≤ bk.y0 ∧ bk.y1 ≤ y1 := by
  have hmap :
      ((parseOCRResult (doc810627 ⟨x0, y0, x1, y1⟩)).fields.map
          (fun f => (f.label, f.value, f.bbox))) =
        [("주민등록번호", "810627-1234567", (⟨x0, y0, x1, y1⟩ : Bbox)),
         ("생년월일", "810627", interpolateBBoxD ⟨x0, y0, x1, y1⟩ 14 0 6),
         ("성별", "1", interpolateBBoxD ⟨x0, y0, x1, y1⟩ 14 7 1),
         ("주민번호 뒷자리", "234567",
           { interpolateBBoxD ⟨x0, y0, x1, y1⟩ 14 8 6 with
               x0 := (interpolateBBoxD ⟨x0, y0, x1, y1⟩ 14 8 6).x0 + 2 })] := rfl
  have h14 : ¬ (14 : ℤ) = 0 := by norm_num
  have hB1 := interpolateBBoxD_eq ⟨x0, y0, x1, y1⟩ 14 0 6 h14
  have hB2 := interpolateBBoxD_eq ⟨x0, y0, x1, y1⟩ 14 7 1 h14
  have hB3 := interpolateBBoxD_eq ⟨x0, y0, x1, y1⟩ 14 8 6 h14
  have hwq : (14 : ℚ) ≤ (x1 : ℚ) - (x0 : ℚ) := by
    exact_mod_cast hw
  have hW0 : (0 : ℚ) ≤ (x1 : ℚ) - (x0 : ℚ) := by linarith
  have ht0 : (0 : ℚ) ≤ ((x1 : ℚ) - (x0 : ℚ)) / 14 :=
    div_nonneg hW0 (by norm_num)
  have ht1 : (1 : ℚ) ≤ ((x1 : ℚ) - (x0 : ℚ)) / 14 := by
    rw [le_div_iff₀ (by norm_num : (0 : ℚ) < 14)]
    linarith
  have hhq : (y0 : ℚ) ≤ (y1 : ℚ) := by exact_mod_cast hh
  have h15 : (0 : ℚ) ≤ ((y1 : ℚ) - (y0 : ℚ)) * (0.15 : ℚ) :=
    mul_nonneg (by linarith) (by norm_num)
  have hy0 : y0 ≤ ⌊(y0 : ℚ) + ((y1 : ℚ) - (y0 : ℚ)) * (0.15 : ℚ)⌋ := by
    apply Int.le_floor.mpr
    linarith
  have hy1 : ⌈(y1 : ℚ) - ((y1 : ℚ) - (y0 : ℚ)) * (0.15 : ℚ)⌉ ≤ y1 := by
    apply Int.ceil_le.mpr
    linarith
  refine ⟨interpolateBBoxD ⟨x0, y0, x1, y1⟩ 14 0 6, interpolateBBoxD ⟨x0, y0, x1, y1⟩ 14 7 1,
    { interpolateBBoxD ⟨x0, y0, x1, y1⟩ 14 8 6 with
        x0 := (interpolateBBoxD ⟨x0, y0, x1, y1⟩ 14 8 6).x0 + 2 },
    hmap, ?_, ?_, ?_, ?_, ?_, ?_, ?_, ?_, ?_, ?_, ?_, ?_, ?_⟩ <;>
    simp only [hB1, hB2, hB3] <;> push_cast
  · apply Int.le_floor.mpr
    linarith
  · refine le_trans (Int.floor_le_floor ?_) (Int.floor_le_ceil _)
    linarith
  · apply ceil_le_floor_gap
    linarith
  · refine le_trans (Int.floor_le_floor ?_) (Int.floor_le_ceil _)
    linarith
  · rw [show (7 : ℚ) + 1 = 8 from by norm_num]
    have := Int.ceil_le_floor_add_one ((x0 : ℚ) + ((x1 : ℚ) - (x0 : ℚ)) / 14 * 8)
    omega
  · rw [show (8 : ℚ) + 6 = 14 from by norm_num]
    have hexp : (x0 : ℚ) + ((x1 : ℚ) - (x0 : ℚ)) / 14 * 14 = (x1 : ℚ) := by
      rw [div_mul_cancel₀ _ (by norm_num : (14 : ℚ) ≠ 0)]
      ring
    rw [hexp, Int.ceil_intCast]
    have hkey : ((x1 : ℚ) - (x0 : ℚ)) / 14 * 8 ≤ ((x1 : ℚ) - (x0 : ℚ)) - 4 := by
      rw [div_mul_eq_mul_div, div_le_iff₀ (by norm_num : (0 : ℚ) < 14)]
      linarith
    have hfl : ⌊(x0 : ℚ) + ((x1 : ℚ) - (x0 : ℚ)) / 14 * 8⌋ ≤ x1 - 4 := by
      have hle : (x0 : ℚ) + ((x1 : ℚ) - (x0 : ℚ)) / 14 * 8 ≤ ((x1 - 4 : ℤ) : ℚ) := by
        push_cast
        linarith
      have := Int.floor_le_floor hle
      rwa [Int.floor_intCast] at this
    omega
  · rw [show (8 : ℚ) + 6 = 14 from by norm_num]
    have hexp : (x0 : ℚ) + ((x1 : ℚ) - (x0 : ℚ)) / 14 * 14 = (x1 : ℚ) := by
      rw [div_mul_cancel₀ _ (by norm_num : (14 : ℚ) ≠ 0)]
      ring
    rw [hexp, Int.ceil_intCast]
  · exact hy0
  · exact hy1
  · exact hy0
  · exact hy1
  · exact hy0
  · exact hy1

/-- Witness for C3 at the concrete line bbox (0, 0, 140, 20). -/
theorem C3_line_810627_witness :
    ∃ bb bg bk : Bbox,
      ((parseOCRResult (doc810627 ⟨0, 0, 140, 20⟩)).fields.map
          (fun f => (f.label, f.value, f.bbox))) =
        [("주민등록번호", "810627-1234567", ⟨0, 0, 140, 20⟩),
         ("생년월일", "810627", bb), ("성별", "1", bg), ("주민번호 뒷자리", "234567", bk)] ∧
      0 ≤ bb.x0 ∧ bb.x0 ≤ bb.x1 ∧ bb.x1 ≤ bg.x0 ∧ bg.x0 ≤ bg.x1 ∧ bg.x1 ≤ bk.x0 ∧
      bk.x0 ≤ bk.x1 ∧ bk.x1 ≤ 140 ∧
      0 ≤ bb.y0 ∧ bb.y1 ≤ 20 ∧ 0 ≤ bg.y0 ∧ bg.y1 ≤ 20 ∧ 0 ≤ bk.y0 ∧ bk.y1 ≤ 20 :=
  C3_line_810627 0 0 140 20 (by decide) (by decide)

theorem flattenWords_cons (l : OCRLine) (ls : List OCRLine) :
    flattenWords (l :: ls) = l.words ++ flattenWords ls := rfl

theorem flattenWords_clusterGo_some (l : List OCRWord) :
    ∀ cur, flattenWords (clusterGo (some cur) l) = cur.ws ++ l := by
  induction l with
  | nil =>
    intro cur
    simp [clusterGo, flattenWords, finishLine]
  | cons w ws ih =>
    intro cur
    simp only [clusterGo]
    by_cases hc : closePair cur.bbox w.bbox
    · rw [if_pos hc, ih]
      simp
    · rw [if_neg hc, flattenWords_cons, ih ⟨[w], w.bbox⟩]
      simp [finishLine]

theorem flattenWords_clusterGo_none (l : List OCRWord) :
    flattenWords (clusterGo none l) = l := by
  cases l with
  | nil => rfl
  | cons w ws =>
    simp only [clusterGo]
    rw [flattenWords_clusterGo_some ws ⟨[w], w.bbox⟩]
    rfl

theorem sortInsert_perm (x : OCRWord) (l : List OCRWord) : (sortInsert x l).Perm (x :: l) := by
  induction l with
  | nil => exact List.Perm.refl _
  | cons y ys ih =>
    simp only [sortInsert]
    by_cases h : jsWordCmp x y < 0
    · rw [if_pos h]
    · rw [if_neg h]
      exact (ih.cons y).trans (List.Perm.swap x y ys)

theorem foldl_sortInsert_perm (l : List OCRWord) :
    ∀ acc, (l.foldl (fun a x => sortInsert x a) acc).Perm (acc ++ l) := by
  induction l with
  | nil =>
    intro acc
    simp
  | cons x xs ih =>
    intro acc
    simp only [List.foldl_cons]
    refine (ih (sortInsert x acc)).trans ?_
    refine (List.Perm.append_right xs (sortInsert_perm x acc)).trans ?_
    exact List.perm_middle.symm

theorem jsSortWords_perm (l : List OCRWord) : (jsSortWords l).Perm l := by
  simpa [jsSortWords] using foldl_sortInsert_perm l []

/-- C1 counterexample: on the native recovery path the code passes
`raw.words` through unrelated to the line structure, so a raw output
with one native line (carrying one word) but an empty top-level words
array yields `doc.words = []` while the lines flatten to one word. -/
theorem C1_flatten_counterexample :
    recoveryPath rawNativeCE = .native ∧
    (performOCRStructure rawNativeCE).words ≠
      flattenWords (performOCRStructure rawNativeCE).lines := by
  decide

/-- C1 amended: the flatten invariant `doc.words =
flatten(doc.lines.*.words)` holds on the hOCR, raw-text and empty
recovery paths; on the word-clustering path it holds only up to
permutation (the words are re-sorted before clustering); on the native
path both arrays are engine pass-throughs and the invariant is not
enforced. -/
theorem C1_flatten_amended (raw : RawOcrOutput) :
    (recoveryPath raw = .hocrPath →
      (performOCRStructure raw).words = flattenWords (performOCRStructure raw).lines) ∧
    (recoveryPath raw = .rawText →
      (performOCRStructure raw).words = flattenWords (performOCRStructure raw).lines) ∧
    (recoveryPath raw = .emptyPath →
      (performOCRStructure raw).words = flattenWords (performOCRStructure raw).lines) ∧
    (recoveryPath raw = .wordCluster →
      (flattenWords (performOCRStructure raw).lines).Perm (performOCRStructure raw).words) := by
  by_cases h1 : (nativeLines raw).length = 0
  · by_cases h2 : raw.words.length = 0
    · rcases hh : raw.hocr with _ | hn
      · by_cases h3 : raw.text ≠ ""
        · simp only [performOCRStructure, recoveryPath, hh]
          rw [if_pos h1, if_pos h2, if_pos h3, if_pos h1, if_pos h2, if_pos h3]
          refine ⟨?_, ?_, ?_, ?_⟩ <;> intro hp
          · exact RecoveryPath.noConfusion hp
          · rfl
          · exact RecoveryPath.noConfusion hp
          · exact RecoveryPath.noConfusion hp
        · simp only [performOCRStructure, recoveryPath, hh]
          rw [if_pos h1, if_pos h2, if_neg h3, if_pos h1, if_pos h2, if_neg h3]
          have hw : raw.words = [] := List.length_eq_zero.mp h2
          have hl : nativeLines raw = [] := List.length_eq_zero.mp h1
          refine ⟨?_, ?_, ?_, ?_⟩ <;> intro hp
          · exact RecoveryPath.noConfusion hp
          · exact RecoveryPath.noConfusion hp
          · simp [hw, hl, flattenWords]
          · exact RecoveryPath.noConfusion hp
      · simp only [performOCRStructure, recoveryPath, hh]
        rw [if_pos h1, if_pos h2, if_pos h1, if_pos h2]
        refine ⟨?_, ?_, ?_, ?_⟩ <;> intro hp
        · rfl
        · exact RecoveryPath.noConfusion hp
        · exact RecoveryPath.noConfusion hp
        · exact RecoveryPath.noConfusion hp
    · simp only [performOCRStructure, recoveryPath]
      rw [if_pos h1, if_neg h2, if_pos h1, if_neg h2]
      refine ⟨?_, ?_, ?_, ?_⟩ <;> intro hp
      · exact RecoveryPath.noConfusion hp
      · exact RecoveryPath.noConfusion hp
      · exact RecoveryPath.noConfusion hp
      · simp only [reconstructLinesFromWords]
        rw [flattenWords_clusterGo_none]
        exact jsSortWords_perm raw.words
  · simp only [performOCRStructure, recoveryPath]
    rw [if_neg h1, if_neg h1]
    refine ⟨?_, ?_, ?_, ?_⟩ <;> intro hp
    · exact RecoveryPath.noConfusion hp
    · exact RecoveryPath.noConfusion hp
    · exact RecoveryPath.noConfusion hp
    · exact RecoveryPath.noConfusion hp

/-- Witness for C1 amended: one concrete raw output per non-native
recovery path. -/
theorem C1_flatten_amended_witness :
    (performOCRStructure ⟨[], [], [], some [], ""⟩).words =
      flattenWords (performOCRStructure ⟨[], [], [], some [], ""⟩).lines ∧
    (performOCRStructure ⟨[], [], [], none, "ab"⟩).words =
      flattenWords (performOCRStructure ⟨[], [], [], none, "ab"⟩).lines ∧
    (performOCRStructure ⟨[], [], [], none, ""⟩).words =
      flattenWords (performOCRStructure ⟨[], [], [], none, ""⟩).lines ∧
    (flattenWords (performOCRStructure ⟨[], [], [⟨"w", ⟨0, 0, 10, 10⟩, 1⟩], none, ""⟩).lines).Perm
      (performOCRStructure ⟨[], [], [⟨"w", ⟨0, 0, 10, 10⟩, 1⟩], none, ""⟩).words :=
  ⟨(C1_flatten_amended ⟨[], [], [], some [], ""⟩).1 (by decide),
   (C1_flatten_amended ⟨[], [], [], none, "ab"⟩).2.1 (by decide),
   (C1_flatten_amended ⟨[], [], [], none, ""⟩).2.2.1 (by decide),
   (C1_flatten_amended ⟨[], [], [⟨"w", ⟨0, 0, 10, 10⟩, 1⟩], none, ""⟩).2.2.2 (by decide)⟩

end IDMasking
